import Mathlib

/-!
Verification of the MMAI-API document-processing pipeline.

This file shallowly embeds the core of the repository:
- `DocumentChunker.splitContent` / `chunkMarkdown` / `chunksToJsonl` /
  `jsonlToChunks` (src/shared/document-chunker.ts),
- `AdvancedCrawler.fetchPage` / `crawlWebsite` (src/shared/advanced-crawler.ts),
- `DocumentConverter.convertUrl` (src/shared/document-converter.ts),
- `JobManager.updateJobStatus` (src/shared/job-manager.ts) and the job status
  writes performed by the four stage handlers.

JavaScript strings are embedded as `List Char`; JS string operations
(`slice`, `lastIndexOf`, `includes`, `trim`, `toLowerCase`, `split`) are
defined below with JS semantics.  JS numbers used by this code are
non-negative integers and are embedded as `Nat`; the one place the source
relies on clamping a possibly-negative number
(`if (currentPosition < 0) currentPosition = 0`) coincides with truncated
`Nat` subtraction.
-/

/-- JavaScript string, embedded as a list of characters. -/
abbrev Str := List Char

/-- Literal helper: a Lean string literal viewed as a JS string. -/
def str (s : String) : Str := s.toList

/-- JS `s.slice(start, stop)` for non-negative clamped indices. -/
def jsSlice (s : Str) (start stop : Nat) : Str := (s.take stop).drop start

/-- Whitespace test used by JS `trim` / `split(/\s+/)` (space, tab, newline,
carriage return, form feed, vertical tab). -/
def isJsWS (c : Char) : Bool :=
  c = ' ' || c = '\t' || c = '\n' || c = '\x0d' || c = '\x0c' || c = '\x0b'

/-- JS `s.trim()`. -/
def jsTrim (s : Str) : Str :=
  ((s.dropWhile isJsWS).reverse.dropWhile isJsWS).reverse

/-- JS `s.lastIndexOf(pat)`: the greatest index at which `pat` occurs in `s`,
`none` when absent (the source compares the result with `-1`). -/
def lastIndexOfSub (s pat : Str) : Option Nat :=
  (((List.range (s.length + 1)).filter (fun i => pat.isPrefixOf (s.drop i)))).getLast?

/-- JS `s.toLowerCase()` (ASCII case folding suffices for the indicator and
error-message checks performed by this code). -/
def jsLower (s : Str) : Str := s.map Char.toLower

/-- JS `s.includes(sub)`. -/
def jsIncludes (s sub : Str) : Bool :=
  (List.range (s.length + 1)).any (fun i => sub.isPrefixOf (s.drop i))

/-- JS `s.split(sep)` for a single-character separator. -/
def jsSplit (sep : Char) (s : Str) : List Str := List.splitOn sep s

/-- Number of words of a chunk: JS
`chunk.split(/\s+/).filter(w => w.length > 0).length`. -/
def countWords (s : Str) : Nat :=
  ((s.splitOnP isJsWS).filter (fun w => w ≠ [])).length

/-! ### DocumentChunker (src/shared/document-chunker.ts)

`interface ChunkingOptions` and the static methods of `class DocumentChunker`.
-/

/-- ChunkingOptions of the chunker: maximum characters per chunk, characters
to overlap between chunks, and whether to try to break at paragraph
boundaries. -/
structure ChunkingOptions where
  maxChunkSize : Nat
  overlapSize : Nat
  respectParagraphs : Bool
deriving DecidableEq, Repr

/-- DEFAULT_OPTIONS of DocumentChunker. -/
def DEFAULT_OPTIONS : ChunkingOptions :=
  { maxChunkSize := 2000, overlapSize := 200, respectParagraphs := true }

/-- Boundary-adjusted chunk end for one iteration of the splitting loop of
`DocumentChunker.splitContent`: starting from the raw boundary
`pos + maxChunkSize`, when `respectParagraphs` is set, search the window
from `max(pos + maxChunkSize - 200, pos)` to
`min(pos + maxChunkSize + 200, content.length)` for the last paragraph break
`"\n\n"`, else the last line break `"\n"`, else the last sentence end `". "`,
and fall back to the raw boundary when none is found. -/
def boundaryChunkEnd (content : Str) (o : ChunkingOptions) (pos : Nat) : Nat :=
  let chunkEnd := pos + o.maxChunkSize
  if o.respectParagraphs then
    let searchStart := max (pos + o.maxChunkSize - 200) pos
    let searchEnd := min (chunkEnd + 200) content.length
    let sect := jsSlice content searchStart searchEnd
    match lastIndexOfSub sect (str "\n\n") with
    | some paragraphBreak => searchStart + paragraphBreak + 2
    | none =>
      match lastIndexOfSub sect (str "\n") with
      | some lineBreak => searchStart + lineBreak + 1
      | none =>
        match lastIndexOfSub sect (str ". ") with
        | some sentenceEnd => searchStart + sentenceEnd + 2
        | none => chunkEnd
  else chunkEnd

/-- Cursor position after one non-final iteration of the splitting loop:
`currentPosition = chunkEnd - options.overlapSize`, clamped at `0` exactly as
the source's `if (currentPosition < 0) currentPosition = 0` (truncated `Nat`
subtraction). -/
def stepPos (content : Str) (o : ChunkingOptions) (pos : Nat) : Nat :=
  boundaryChunkEnd content o pos - o.overlapSize

/-- The `while (currentPosition < content.length)` loop of
`DocumentChunker.splitContent`, as a fuelled recursion: each recursive call
consumes one unit of fuel, and `none` is returned when the fuel is exhausted
with the cursor still inside the content.  Because the loop body is a
deterministic function of the cursor alone, the JS loop terminates iff it
terminates within `content.length` iterations (a cursor value in
`[0, content.length)` can never repeat without the loop diverging), so
running with fuel `content.length + 1` — as `splitContent` below does —
returns `some` exactly when the JS loop terminates. -/
def splitContentAux (content : Str) (o : ChunkingOptions) :
    Nat → Nat → Option (List Str)
  | 0, pos => if pos < content.length then none else some []
  | fuel + 1, pos =>
    if pos < content.length then
      if content.length ≤ pos + o.maxChunkSize then
        some [content.drop pos]
      else
        let chunkEnd := boundaryChunkEnd content o pos
        match splitContentAux content o fuel (chunkEnd - o.overlapSize) with
        | some rest => some (jsSlice content pos chunkEnd :: rest)
        | none => none
    else some []

/-- `DocumentChunker.splitContent(content, options)`: return the whole content
when it fits in one chunk, otherwise run the splitting loop and drop chunks
that are empty after trimming.  `none` models divergence of the source's
`while` loop (see `splitContentAux`). -/
def splitContent (content : Str) (o : ChunkingOptions) : Option (List Str) :=
  if content.length ≤ o.maxChunkSize then some [content]
  else
    (splitContentAux content o (content.length + 1) 0).map
      (List.filter (fun chunk => (jsTrim chunk).length ≠ 0))

/-! ### JSON serialization of chunks (JSON.stringify / JSON.parse)

`chunksToJsonl` serializes each chunk with `JSON.stringify` and joins with
newlines; `jsonlToChunks` splits on newlines, drops blank lines and parses
each line with `JSON.parse`.  `JSON.stringify` is embedded exactly (compact
output, insertion-order keys, standard string escaping); `JSON.parse` is
embedded restricted to the object layout `JSON.stringify` produces for a
`DocumentChunk` — the only shape `jsonlToChunks` receives from the chunk
pipeline. -/

/-- Decimal digit character. -/
def digitChar : Nat → Char
  | 0 => '0' | 1 => '1' | 2 => '2' | 3 => '3' | 4 => '4'
  | 5 => '5' | 6 => '6' | 7 => '7' | 8 => '8' | _ => '9'

/-- Hexadecimal digit character (lowercase, as `JSON.stringify` emits). -/
def hexDigitChar : Nat → Char
  | 0 => '0' | 1 => '1' | 2 => '2' | 3 => '3' | 4 => '4'
  | 5 => '5' | 6 => '6' | 7 => '7' | 8 => '8' | 9 => '9'
  | 10 => 'a' | 11 => 'b' | 12 => 'c' | 13 => 'd' | 14 => 'e' | _ => 'f'

/-- Value of a hexadecimal digit character. -/
def hexVal (c : Char) : Option Nat :=
  if c = '0' then some 0 else if c = '1' then some 1
  else if c = '2' then some 2 else if c = '3' then some 3
  else if c = '4' then some 4 else if c = '5' then some 5
  else if c = '6' then some 6 else if c = '7' then some 7
  else if c = '8' then some 8 else if c = '9' then some 9
  else if c = 'a' then some 10 else if c = 'b' then some 11
  else if c = 'c' then some 12 else if c = 'd' then some 13
  else if c = 'e' then some 14 else if c = 'f' then some 15
  else none

/-- Little-endian decimal digits of `n` (fuelled division loop). -/
def natDigitsAux : Nat → Nat → List Nat
  | 0, _ => []
  | fuel + 1, n => if n = 0 then [] else n % 10 :: natDigitsAux fuel (n / 10)

/-- Decimal rendering of a non-negative JS number. -/
def natToStr (n : Nat) : Str :=
  if n = 0 then ['0'] else ((natDigitsAux (n + 1) n).map digitChar).reverse

/-- Numeric value of a big-endian decimal digit string. -/
def strToNat (ds : Str) : Nat :=
  ds.foldl (fun acc c => acc * 10 + (c.toNat - 48)) 0

/-- Parse a leading decimal number, returning it with the unconsumed rest. -/
def parseNatFrom (s : Str) : Option (Nat × Str) :=
  let ds := s.takeWhile Char.isDigit
  if ds = [] then none else some (strToNat ds, s.dropWhile Char.isDigit)

/-- JSON escape of one character (the escaping `JSON.stringify` applies to
string values: quote, backslash, the short control escapes, and `\u00XX` for
the remaining control characters). -/
def encChar (c : Char) : Str :=
  if c = '"' then ['\\', '"']
  else if c = '\\' then ['\\', '\\']
  else if c = '\n' then ['\\', 'n']
  else if c = '\x0d' then ['\\', 'r']
  else if c = '\t' then ['\\', 't']
  else if c = '\x08' then ['\\', 'b']
  else if c = '\x0c' then ['\\', 'f']
  else if c.toNat < 32 then
    ['\\', 'u', '0', '0', hexDigitChar (c.toNat / 16), hexDigitChar (c.toNat % 16)]
  else [c]

/-- JSON escape of a string value (body between the quotes). -/
def encodeStr (s : Str) : Str := (s.map encChar).flatten

/-- JSON string value with its surrounding quotes. -/
def jsonQ (s : Str) : Str := '"' :: (encodeStr s ++ ['"'])

/-- Inverse of the short escapes. -/
def escCharInv (e : Char) : Option Char :=
  if e = '"' then some '"'
  else if e = '\\' then some '\\'
  else if e = '/' then some '/'
  else if e = 'n' then some '\n'
  else if e = 'r' then some '\x0d'
  else if e = 't' then some '\t'
  else if e = 'b' then some '\x08'
  else if e = 'f' then some '\x0c'
  else none

/-- Decode a JSON string body up to its closing quote (fuelled recursion:
every step consumes at least one input character, so the wrapper below runs
it with fuel `length + 1`, which always suffices); returns the decoded value
and the input remaining after the closing quote. -/
def decodeBodyF : Nat → Str → Option (Str × Str)
  | 0, _ => none
  | _ + 1, [] => none
  | fuel + 1, c :: rest =>
    if c = '"' then some ([], rest)
    else if c = '\\' then
      match rest with
      | [] => none
      | e :: rest2 =>
        if e = 'u' then
          match rest2 with
          | d1 :: d2 :: d3 :: d4 :: rest3 =>
            match hexVal d1, hexVal d2, hexVal d3, hexVal d4 with
            | some a, some b, some c2, some d =>
              match decodeBodyF fuel rest3 with
              | some (t, r) => some (Char.ofNat (((a * 16 + b) * 16 + c2) * 16 + d) :: t, r)
              | none => none
            | _, _, _, _ => none
          | _ => none
        else
          match escCharInv e with
          | some ch =>
            match decodeBodyF fuel rest2 with
            | some (t, r) => some (ch :: t, r)
            | none => none
          | none => none
    else
      match decodeBodyF fuel rest with
      | some (t, r) => some (c :: t, r)
      | none => none

/-- Decode a JSON string body up to its closing quote. -/
def decodeBody (s : Str) : Option (Str × Str) := decodeBodyF (s.length + 1) s

/-- Expect a literal token, returning the rest of the input. -/
def parseLit : Str → Str → Option Str
  | [], s => some s
  | _ :: _, [] => none
  | p :: ps, c :: cs => if c = p then parseLit ps cs else none

/-- Parse a JSON string value (with quotes). -/
def parseJStr (s : Str) : Option (Str × Str) :=
  match s with
  | '"' :: rest => decodeBody rest
  | _ => none

/-! ### DocumentChunk (src/types/document-processing.ts) -/

/-- Metadata record of a DocumentChunk. -/
structure ChunkMetadata where
  source_file : Str
  document_type : Str
  chunk_index : Nat
  word_count : Nat
  project_id : Str
  crawl_time : Str
  title : Option Str
  created : Option Str
  modified : Option Str
deriving DecidableEq, Repr

/-- DocumentChunk of the pipeline. -/
structure DocumentChunk where
  id : Str
  content : Str
  metadata : ChunkMetadata
deriving DecidableEq, Repr

/-- Optional metadata key of the stringified chunk: omitted (as
`JSON.stringify` omits `undefined` properties) when absent. -/
def optField (k : String) (v : Option Str) : Str :=
  match v with
  | some s => str ",\"" ++ str k ++ str "\":" ++ jsonQ s
  | none => []

/-- JSON.stringify of a `DocumentChunk`, with the key insertion order of the
object literal built by `DocumentChunker.chunkMarkdown`. -/
def stringifyChunk (c : DocumentChunk) : Str :=
  str "\x7b\"id\":" ++ jsonQ c.id
    ++ str ",\"content\":" ++ jsonQ c.content
    ++ str ",\"metadata\":\x7b\"source_file\":" ++ jsonQ c.metadata.source_file
    ++ str ",\"document_type\":" ++ jsonQ c.metadata.document_type
    ++ str ",\"chunk_index\":" ++ natToStr c.metadata.chunk_index
    ++ str ",\"word_count\":" ++ natToStr c.metadata.word_count
    ++ str ",\"project_id\":" ++ jsonQ c.metadata.project_id
    ++ str ",\"crawl_time\":" ++ jsonQ c.metadata.crawl_time
    ++ optField "title" c.metadata.title
    ++ optField "created" c.metadata.created
    ++ optField "modified" c.metadata.modified
    ++ str "\x7d\x7d"

/-- Parse one optional metadata field if present at the head of the input. -/
def parseOptField (k : String) (s : Str) : Option (Option Str × Str) :=
  match parseLit (str ",\"" ++ str k ++ str "\":") s with
  | some rest => (parseJStr rest).map (fun p => (some p.1, p.2))
  | none => some (none, s)

/-- Parse a mandatory `"key":"value"` group given its literal prefix. -/
def parseKeyStr (lit : Str) (s : Str) : Option (Str × Str) :=
  match parseLit lit s with
  | some r => parseJStr r
  | none => none

/-- Parse a mandatory `"key":number` group given its literal prefix. -/
def parseKeyNat (lit : Str) (s : Str) : Option (Nat × Str) :=
  match parseLit lit s with
  | some r => parseNatFrom r
  | none => none

/-- String fields at the head of a chunk line: id and content. -/
def parseChunkHead (line : Str) : Option (Str × Str × Str) :=
  match parseKeyStr (str "\x7b\"id\":") line with
  | some (idv, r) =>
    match parseKeyStr (str ",\"content\":") r with
    | some (cv, r2) => some (idv, cv, r2)
    | none => none
  | none => none

/-- Mandatory metadata fields of a chunk line, in stringify order. -/
def parseChunkMeta (s : Str) : Option (ChunkMetadata × Str) :=
  match parseKeyStr (str ",\"metadata\":\x7b\"source_file\":") s with
  | some (sf, r1) =>
    match parseKeyStr (str ",\"document_type\":") r1 with
    | some (dt, r2) =>
      match parseKeyNat (str ",\"chunk_index\":") r2 with
      | some (ci, r3) =>
        match parseKeyNat (str ",\"word_count\":") r3 with
        | some (wc, r4) =>
          match parseKeyStr (str ",\"project_id\":") r4 with
          | some (pid, r5) =>
            match parseKeyStr (str ",\"crawl_time\":") r5 with
            | some (ct, r6) => some (⟨sf, dt, ci, wc, pid, ct, none, none, none⟩, r6)
            | none => none
          | none => none
        | none => none
      | none => none
    | none => none
  | none => none

/-- Optional metadata fields of a chunk line, in stringify order. -/
def parseChunkOpts (s : Str) : Option (Option Str × Option Str × Option Str × Str) :=
  match parseOptField "title" s with
  | some (t, r1) =>
    match parseOptField "created" r1 with
    | some (c, r2) =>
      match parseOptField "modified" r2 with
      | some (m, r3) => some (t, c, m, r3)
      | none => none
    | none => none
  | none => none

/-- JSON.parse of one JSONL line, restricted to the `DocumentChunk` layout
emitted by `stringifyChunk` (the wire format of the chunk pipeline). -/
def parseChunkLine (line : Str) : Option DocumentChunk :=
  match parseChunkHead line with
  | some (idv, cv, r) =>
    match parseChunkMeta r with
    | some (md, r2) =>
      match parseChunkOpts r2 with
      | some (t, c, m, r3) =>
        match r3 with
        | '\x7d' :: '\x7d' :: [] =>
          some ⟨idv, cv, { md with title := t, created := c, modified := m }⟩
        | _ => none
      | none => none
    | none => none
  | none => none

/-- `DocumentChunker.chunksToJsonl(chunks)`: one JSON object per line. -/
def chunksToJsonl (chunks : List DocumentChunk) : Str :=
  List.intercalate ['\n'] (chunks.map stringifyChunk)

/-- Map `JSON.parse` over the lines; a parse failure on any line is a throw
of the whole call. -/
def parseChunkLines : List Str → Option (List DocumentChunk)
  | [] => some []
  | line :: rest =>
    match parseChunkLine line, parseChunkLines rest with
    | some c, some cs => some (c :: cs)
    | _, _ => none

/-- `DocumentChunker.jsonlToChunks(jsonl)`: split on newlines, drop blank
lines, `JSON.parse` each line (`none` models a `JSON.parse` throw). -/
def jsonlToChunks (jsonl : Str) : Option (List DocumentChunk) :=
  parseChunkLines ((jsSplit '\n' jsonl).filter (fun line => jsTrim line ≠ []))

/-! ### AdvancedCrawler (src/shared/advanced-crawler.ts)

The crawler is embedded over an environment of oracles for its external
collaborators: the network (`fetch`, after `fetchWithEnhancedHeaders`'
in-process retry loop has resolved), the headless browser, and the
HTML-to-text helpers (`htmlToMarkdown`, `extractTitle`, `new URL(u).pathname`,
`new Date().toISOString()`), none of whose internals any claim depends on.
The instrumented functions additionally return the list of URLs passed to a
page fetch, in order, so that statements about "which URLs get fetched" can
be made; this ghost log does not influence any computed result. -/

/-- Fetch method of a page or error: `'http' | 'browser'`. -/
inductive FetchMethod
  | http
  | browser
deriving DecidableEq, Repr

/-- PageContent of the crawler. -/
structure PageContent where
  url : Str
  title : Str
  content : Str
  depth : Nat
  method : FetchMethod
deriving DecidableEq, Repr

/-- CrawlError of the crawler. -/
structure CrawlError where
  url : Str
  error : Str
  timestamp : Str
  method : FetchMethod
deriving DecidableEq, Repr

/-- CrawlResult of the crawler. -/
structure CrawlResult where
  pages : List PageContent
  errors : List CrawlError
  httpAttempts : Nat
  browserFallbacks : Nat
deriving DecidableEq, Repr

/-- Response of a resolved HTTP fetch: the fields `processHttpResponse`
reads (`ok`, `status`, `statusText`, the content-type header, the body
text). -/
structure HttpResponse where
  ok : Bool
  status : Nat
  statusText : Str
  contentType : Str
  body : Str
deriving DecidableEq, Repr

/-- Environment of external collaborators of the crawler and converter. -/
structure CrawlEnv where
  httpFetch : Str → Except Str HttpResponse
  browserFetch : Str → Except Str (Str × Str)
  htmlToMarkdown : Str → Str
  extractTitle : Str → Str
  urlPathname : Str → Str
  nowIso : Str
  localeTime : Str → Str

/-- JS `a || b` for strings (empty string is falsy). -/
def jsOrEmpty (a b : Str) : Str := if a = [] then b else a

/-- Bot-defense indicator substrings scanned for by `processHttpResponse`,
in source order. -/
def botDetectionIndicators : List Str :=
  [str "cloudflare", str "checking your browser", str "please enable javascript",
   str "access denied", str "blocked", str "captcha", str "security check",
   str "ddos protection", str "ray id", str "cf-ray", str "bot protection",
   str "antibot", str "human verification"]

/-- First bot-defense indicator contained in the lowercased page body (the
source throws on the first matching indicator of the list). -/
def firstBotIndicator (htmlLower : Str) : Option Str :=
  botDetectionIndicators.find? (fun ind => jsIncludes htmlLower ind)

/-- `AdvancedCrawler.processHttpResponse(url, response)`: reject non-OK
status, non-HTML content type and bot-detection indicators (as thrown error
messages), skip pages whose extracted content is under 50 characters
(returning `null`), and otherwise produce the page content. -/
def processHttpResponse (env : CrawlEnv) (url : Str) (r : HttpResponse) :
    Except Str (Option PageContent) :=
  if r.ok = false then
    .error (str "HTTP " ++ natToStr r.status ++ str ": " ++ r.statusText)
  else if jsIncludes r.contentType (str "text/html") = false then
    .error (str "Not an HTML page: " ++ r.contentType)
  else
    match firstBotIndicator (jsLower r.body) with
    | some indicator =>
      .error (str "Bot detection - Website is using anti-bot protection (detected: "
        ++ indicator ++ str ")")
    | none =>
      let title := jsOrEmpty (env.extractTitle r.body) (env.urlPathname url)
      let content := env.htmlToMarkdown r.body
      if content.length < 50 then .ok none
      else .ok (some ⟨url, title, content, 0, .http⟩)

/-- `AdvancedCrawler.fetchWithBrowser(url)`: headless-browser fetch of
(title, html), converted with `htmlToMarkdown` and skipped under the same
50-character floor. -/
def fetchWithBrowser (env : CrawlEnv) (url : Str) : Except Str (Option PageContent) :=
  match env.browserFetch url with
  | .error e => .error e
  | .ok (title, html) =>
    let content := env.htmlToMarkdown html
    if content.length < 50 then .ok none
    else .ok (some ⟨url, title, content, 0, .browser⟩)

/-- Phase 1 of `fetchPage`: the enhanced HTTP fetch followed by
`processHttpResponse`; an error is either the network failure or the thrown
processing error. -/
def phase1 (env : CrawlEnv) (url : Str) : Except Str (Option PageContent) :=
  match env.httpFetch url with
  | .error e => .error e
  | .ok r => processHttpResponse env url r

/-- `shouldUseBrowserFallback` test of `fetchPage`, applied to the lowercased
Phase-1 error message. -/
def shouldUseBrowserFallback (errorMessage : Str) : Bool :=
  jsIncludes errorMessage (str "bot detection")
    || jsIncludes errorMessage (str "cloudflare")
    || jsIncludes errorMessage (str "captcha")
    || jsIncludes errorMessage (str "403")
    || jsIncludes errorMessage (str "forbidden")
    || jsIncludes errorMessage (str "429")
    || jsIncludes errorMessage (str "rate limit")

/-- `AdvancedCrawler.fetchPage(url)` instrumented with a flag recording
whether Phase 2 (the browser fallback) ran: try HTTP first; on an HTTP error
run the browser only when `shouldUseBrowserFallback` accepts the lowercased
message, otherwise rethrow the HTTP error unchanged; when both phases fail,
throw the combined message. -/
def fetchPageI (env : CrawlEnv) (url : Str) :
    Except Str (Option PageContent × FetchMethod) × Bool :=
  match phase1 env url with
  | .ok content => (.ok (content, .http), false)
  | .error httpError =>
    if shouldUseBrowserFallback (jsLower httpError) then
      match fetchWithBrowser env url with
      | .ok content => (.ok (content, .browser), true)
      | .error browserError =>
        (.error (str "HTTP failed: " ++ httpError
          ++ str ". Browser fallback failed: " ++ browserError), true)
    else
      (.error httpError, false)

/-- `AdvancedCrawler.fetchPage(url)` (result part). -/
def fetchPage (env : CrawlEnv) (url : Str) :
    Except Str (Option PageContent × FetchMethod) :=
  (fetchPageI env url).1

/-- Mutable state of the crawl loop of `crawlWebsite`. -/
structure CrawlSt where
  visitedUrls : List Str
  crawledPages : List PageContent
  crawlErrors : List CrawlError
  httpAttempts : Nat
  browserFallbacks : Nat
  consecutiveErrors : Nat
deriving DecidableEq, Repr

/-- `maxConsecutiveErrors` of `crawlWebsite`. -/
def maxConsecutiveErrors : Nat := 5

/-- Method attributed to a failed page fetch, from the error message:
`errorMessage.includes('Browser fallback failed') ? 'browser' : 'http'`. -/
def errMethodOf (msg : Str) : FetchMethod :=
  if jsIncludes msg (str "Browser fallback failed") then .browser else .http

/-- The `while` loop of `AdvancedCrawler.crawlWebsite`, instrumented with the
list of URLs passed to `fetchPage`, in order.  Loop structure (matching the
source): run while the queue is nonempty, fewer than `maxPages` pages are
crawled and fewer than `maxConsecutiveErrors` consecutive errors occurred;
dequeue; skip already-visited URLs and URLs beyond `maxDepth`; mark the URL
visited before fetching; on a fetch error record a `CrawlError`, bump the
consecutive-error counter and break out when it reaches the maximum; on
success bump the method counter and, when content was produced, record the
page (at its queue depth) and reset the consecutive-error counter.  The
adaptive delay and the progress callback perform no state change that the
loop reads and are not modelled.  Since link extraction is skipped by this
crawler, the loop never enqueues, so it structurally recurses on the
queue. -/
def crawlLoop (env : CrawlEnv) (maxDepth maxPages : Nat) :
    List (Str × Nat) → CrawlSt → CrawlSt × List Str
  | [], st => (st, [])
  | (url, depth) :: rest, st =>
    if st.crawledPages.length < maxPages ∧ st.consecutiveErrors < maxConsecutiveErrors then
      if url ∈ st.visitedUrls ∨ maxDepth < depth then
        crawlLoop env maxDepth maxPages rest st
      else
        let st1 := { st with visitedUrls := url :: st.visitedUrls }
        match fetchPage env url with
        | .error e =>
          let st2 := { st1 with
            crawlErrors := st1.crawlErrors ++ [⟨url, e, env.nowIso, errMethodOf e⟩],
            consecutiveErrors := st1.consecutiveErrors + 1 }
          if maxConsecutiveErrors ≤ st2.consecutiveErrors then (st2, [url])
          else
            let res := crawlLoop env maxDepth maxPages rest st2
            (res.1, url :: res.2)
        | .ok (contentOpt, method) =>
          let st2 :=
            if method = FetchMethod.http then
              { st1 with httpAttempts := st1.httpAttempts + 1 }
            else
              { st1 with browserFallbacks := st1.browserFallbacks + 1 }
          match contentOpt with
          | some c =>
            let st3 := { st2 with
              crawledPages := st2.crawledPages ++ [{ c with depth := depth }],
              consecutiveErrors := 0 }
            let res := crawlLoop env maxDepth maxPages rest st3
            (res.1, url :: res.2)
          | none =>
            let res := crawlLoop env maxDepth maxPages rest st2
            (res.1, url :: res.2)
    else (st, [])

/-- `AdvancedCrawler.crawlWebsite(startUrl, { maxDepth, maxPages })`: seed the
queue with the start URL at depth 0 and run the loop from the empty state
(instrumented with the fetched-URL log).  `baseDomain` is computed by the
source but never used, because link extraction is skipped. -/
def crawlWebsite (env : CrawlEnv) (startUrl : Str) (maxDepth maxPages : Nat) :
    CrawlResult × List Str :=
  let r := crawlLoop env maxDepth maxPages [(startUrl, 0)] ⟨[], [], [], 0, 0, 0⟩
  (⟨r.1.crawledPages, r.1.crawlErrors, r.1.httpAttempts, r.1.browserFallbacks⟩, r.2)

/-! ### DocumentConverter.convertUrl (src/shared/document-converter.ts)

`convertUrl` runs `AdvancedCrawler.crawlWebsite` and either synthesizes a
diagnostic markdown document (zero pages crawled — returned normally, not
thrown) or combines the crawled pages into one markdown document.  The
result type is `Except` because `convertUrl`'s catch-all wraps any thrown
error as `Failed to convert URL: ...`; within this embedding the crawl
itself cannot throw, and the zero-pages branch returns `.ok`. -/

/-- Serialized method name. -/
def methodStr : FetchMethod → Str
  | .http => str "http"
  | .browser => str "browser"

/-- `method.toUpperCase()` used when tagging converter crawl errors. -/
def methodUpper : FetchMethod → Str
  | .http => str "HTTP"
  | .browser => str "BROWSER"

/-- Join with a separator (JS `Array.prototype.join`). -/
def joinStrs (sep : Str) (xs : List Str) : Str := List.intercalate sep xs

/-- JSON.stringify of an array of strings (compact). -/
def jsonStrArray (xs : List Str) : Str :=
  str "[" ++ joinStrs (str ",") (xs.map jsonQ) ++ str "]"

/-- One crawl error as JSON.stringify(errors, null, 2) renders it. -/
def prettyErrorObj (e : CrawlError) : Str :=
  str "  \x7b\n    \"url\": " ++ jsonQ e.url
    ++ str ",\n    \"error\": " ++ jsonQ e.error
    ++ str ",\n    \"timestamp\": " ++ jsonQ e.timestamp
    ++ str ",\n    \"method\": " ++ jsonQ (methodStr e.method)
    ++ str "\n  \x7d"

/-- JSON.stringify(crawlResult.errors, null, 2). -/
def prettyErrorsJson (es : List CrawlError) : Str :=
  if es = [] then str "[]"
  else str "[\n" ++ joinStrs (str ",\n") (es.map prettyErrorObj) ++ str "\n]"

/-- Page summary entry of the success branch. -/
structure PageSummary where
  url : Str
  title : Str
  depth : Nat
  method : FetchMethod
  contentLength : Nat
deriving DecidableEq, Repr

/-- One page summary as JSON.stringify(summary, null, 2) renders it. -/
def prettySummaryObj (p : PageSummary) : Str :=
  str "  \x7b\n    \"url\": " ++ jsonQ p.url
    ++ str ",\n    \"title\": " ++ jsonQ p.title
    ++ str ",\n    \"depth\": " ++ natToStr p.depth
    ++ str ",\n    \"method\": " ++ jsonQ (methodStr p.method)
    ++ str ",\n    \"contentLength\": " ++ natToStr p.contentLength
    ++ str "\n  \x7d"

/-- JSON.stringify(crawlSummary, null, 2). -/
def prettySummariesJson (ps : List PageSummary) : Str :=
  if ps = [] then str "[]"
  else str "[\n" ++ joinStrs (str ",\n") (ps.map prettySummaryObj) ++ str "\n]"

/-- JS `[...new Set(xs)]`: deduplicate keeping first occurrences. -/
def dedupeJS : List Str → List Str
  | [] => []
  | a :: t => a :: (dedupeJS t).filter (fun b => b ≠ a)

/-- Error-type prefix `e.error.match(/^[^:]+/)`, with the source's
`'Unknown error'` fallback when the match fails. -/
def errPrefix (e : Str) : Str :=
  let p := e.takeWhile (fun c => c ≠ ':')
  if p = [] then str "Unknown error" else p

/-- `(processingTime / 1000).toFixed(2)`: milliseconds as seconds with two
decimal places (exact decimal arithmetic; the float formatting itself is not
relied on by any claim). -/
def toFixed2ms (pt : Nat) : Str :=
  let r := (pt + 5) / 10
  natToStr (r / 100) ++ str "."
    ++ (if r % 100 < 10 then '0' :: natToStr (r % 100) else natToStr (r % 100))

/-- DocumentMetadata of the converter. -/
structure DocumentMetadata where
  title : Option Str
  author : Option Str
  created : Option Str
  modified : Option Str
  wordCount : Nat
  documentType : Str
  sourceFile : Str
  error : Option Str
deriving DecidableEq, Repr

/-- Crawl error entry as re-tagged by `convertUrl`
(`[METHOD] message`). -/
structure ConvCrawlError where
  url : Str
  error : Str
  timestamp : Str
deriving DecidableEq, Repr

/-- ConversionResult of the converter (URL path fields included). -/
structure ConversionResult where
  markdown : Str
  metadata : DocumentMetadata
  processingTimeMs : Option Nat
  pagesCrawled : Option Nat
  crawlErrors : Option (List ConvCrawlError)
  httpAttempts : Option Nat
  browserFallbacks : Option Nat
deriving DecidableEq, Repr

/-- Crawl errors re-tagged with their method for the conversion result. -/
def tagCrawlErrors (es : List CrawlError) : List ConvCrawlError :=
  es.map (fun e =>
    ⟨e.url, str "[" ++ methodUpper e.method ++ str "] " ++ e.error, e.timestamp⟩)

/-- Error classes of the zero-pages branch of `convertUrl`:
bot-detection, access-denied and rate-limit page errors. -/
def botDetectionErrors (es : List CrawlError) : List CrawlError :=
  es.filter (fun e =>
    jsIncludes (jsLower e.error) (str "bot detection")
      || jsIncludes (jsLower e.error) (str "cloudflare")
      || jsIncludes (jsLower e.error) (str "captcha")
      || jsIncludes (jsLower e.error) (str "anti-bot"))

/-- Access-denied page errors (`403`/`401` on the raw message, lowercased
`forbidden`/`unauthorized`). -/
def accessErrors (es : List CrawlError) : List CrawlError :=
  es.filter (fun e =>
    jsIncludes e.error (str "403")
      || jsIncludes e.error (str "401")
      || jsIncludes (jsLower e.error) (str "forbidden")
      || jsIncludes (jsLower e.error) (str "unauthorized"))

/-- Rate-limit page errors. -/
def rateLimitErrors (es : List CrawlError) : List CrawlError :=
  es.filter (fun e =>
    jsIncludes e.error (str "429")
      || jsIncludes (jsLower e.error) (str "rate limit")
      || jsIncludes (jsLower e.error) (str "too many requests"))

/-- Error summary and error-detail lines of the zero-pages branch, built in
source statement order. -/
def convUrlSummary (cr : CrawlResult) : Str × List Str :=
  let bot := botDetectionErrors cr.errors
  let acc := accessErrors cr.errors
  let rate := rateLimitErrors cr.errors
  let s0 := str "Failed to crawl any pages from the provided URL"
  let sd1 :=
    if 0 < bot.length then
      (str "Website is using anti-bot protection that prevented crawling",
       [natToStr bot.length ++ str " page(s) blocked by bot detection"]
         ++ (if 0 < cr.browserFallbacks then
              [str "Tried browser automation fallback but still blocked"] else []))
    else (s0, [])
  let d2 := if 0 < acc.length then
    sd1.2 ++ [natToStr acc.length ++ str " page(s) returned access denied errors"]
    else sd1.2
  let d3 := if 0 < rate.length then
    d2 ++ [natToStr rate.length ++ str " page(s) failed due to rate limiting"]
    else d2
  let sd4 :=
    if d3 = [] ∧ 0 < cr.errors.length then
      (str "All pages failed to crawl",
       d3 ++ [str "Error types: "
         ++ joinStrs (str ", ") (dedupeJS (cr.errors.map (fun e => errPrefix e.error)))])
    else (sd1.1, d3)
  let methodStats :=
    (if 0 < cr.httpAttempts then [natToStr cr.httpAttempts ++ str " HTTP attempt(s)"] else [])
      ++ (if 0 < cr.browserFallbacks then
            [natToStr cr.browserFallbacks ++ str " browser fallback(s)"] else [])
  let d5 := if methodStats ≠ [] then
    sd4.2 ++ [str "Methods tried: " ++ joinStrs (str ", ") methodStats]
    else sd4.2
  (sd4.1, d5)

/-- Recommendation block of the zero-pages branch. -/
def convUrlRecommendations (cr : CrawlResult) : Str :=
  if 0 < (botDetectionErrors cr.errors).length then
    str "- This website uses advanced bot protection (Cloudflare, CAPTCHA, etc.)\n- Consider using the website\x27s official API if available\n- Manual content extraction may be required"
  else if 0 < (accessErrors cr.errors).length then
    str "- This website restricts automated access\n- Check if authentication or special permissions are required\n- Verify the URL is publicly accessible"
  else if 0 < (rateLimitErrors cr.errors).length then
    str "- This website is rate limiting requests\n- Try again later when rate limits reset\n- Consider crawling fewer pages or with longer delays"
  else
    str "- Check the URL is correct and the website is accessible\n- Verify your internet connection\n- The website may be temporarily unavailable"

/-- Detailed error log entry of the zero-pages branch. -/
def convUrlErrEntry (env : CrawlEnv) (e : CrawlError) : Str :=
  str "### " ++ e.url
    ++ str "\n- **Method:** " ++ methodStr e.method
    ++ str "\n- **Error:** " ++ e.error
    ++ str "\n- **Time:** " ++ env.localeTime e.timestamp
    ++ str "\n\n"

/-- Diagnostic markdown document of the zero-pages branch of `convertUrl`
(front matter plus body, one template literal in the source). -/
def convUrlFailureMarkdown (env : CrawlEnv) (url : Str) (depth maxPages : Nat)
    (fileName : Str) (processingTime : Nat) (cr : CrawlResult) : Str :=
  let sd := convUrlSummary cr
  str "---\nsource_url: " ++ url
    ++ str "\ntitle: \"" ++ fileName
    ++ str "\"\ncrawl_time: " ++ env.nowIso
    ++ str "\ndepth: " ++ natToStr depth
    ++ str "\nmax_pages: " ++ natToStr maxPages
    ++ str "\npages_crawled: 0\nprocessing_time_ms: " ++ natToStr processingTime
    ++ str "\nhttp_attempts: " ++ natToStr cr.httpAttempts
    ++ str "\nbrowser_fallbacks: " ++ natToStr cr.browserFallbacks
    ++ str "\nerror_summary: \"" ++ sd.1
    ++ str "\"\nerror_details: " ++ jsonStrArray sd.2
    ++ str "\ncrawl_errors: " ++ prettyErrorsJson cr.errors
    ++ str "\n---\n\n# Failed to Process Website\n\n**URL:** " ++ url
    ++ str "\n**Error:** " ++ sd.1
    ++ str "\n\n## Error Analysis\n\n"
    ++ joinStrs (str "\n") (sd.2.map (fun d => str "- " ++ d))
    ++ str "\n\n## Crawling Methods Attempted\n\n- **Enhanced HTTP Client:** "
    ++ (if 0 < cr.httpAttempts then natToStr cr.httpAttempts ++ str " attempt(s)"
        else str "Not attempted")
    ++ str "\n- **Browser Automation Fallback:** "
    ++ (if 0 < cr.browserFallbacks then natToStr cr.browserFallbacks ++ str " attempt(s)"
        else str "Not used")
    ++ str "\n\n## Detailed Error Log\n\n"
    ++ (cr.errors.map (convUrlErrEntry env)).flatten
    ++ str "\n## Recommendations\n\n"
    ++ convUrlRecommendations cr
    ++ str "\n"

/-- Combined per-page markdown of the success branch of `convertUrl`. -/
def convUrlPageMarkdown (p : PageContent) : Str :=
  str "\n\n---\n\n# " ++ p.title
    ++ str "\n\n**URL:** " ++ p.url
    ++ str "\n\n**Method:** "
    ++ (if p.method = FetchMethod.http then str "🌐 Enhanced HTTP"
        else str "🤖 Browser Automation")
    ++ str "\n\n"
    ++ (if 0 < p.depth then str "**Depth:** " ++ natToStr p.depth ++ str "\n\n" else [])
    ++ p.content ++ str "\n\n"

/-- Front matter and summary header of the success branch of `convertUrl`. -/
def convUrlSuccessHeader (env : CrawlEnv) (url : Str) (depth maxPages : Nat)
    (fileName : Str) (processingTime : Nat) (cr : CrawlResult) : Str :=
  let httpPages := (cr.pages.filter (fun p => p.method = FetchMethod.http)).length
  let browserPages := (cr.pages.filter (fun p => p.method = FetchMethod.browser)).length
  let summaries := cr.pages.map (fun p =>
    PageSummary.mk p.url p.title p.depth p.method p.content.length)
  str "---\nsource_url: " ++ url
    ++ str "\ntitle: \"" ++ fileName
    ++ str "\"\ncrawl_time: " ++ env.nowIso
    ++ str "\ndepth: " ++ natToStr depth
    ++ str "\nmax_pages: " ++ natToStr maxPages
    ++ str "\npages_crawled: " ++ natToStr cr.pages.length
    ++ str "\nprocessing_time_ms: " ++ natToStr processingTime
    ++ str "\nhttp_attempts: " ++ natToStr cr.httpAttempts
    ++ str "\nbrowser_fallbacks: " ++ natToStr cr.browserFallbacks
    ++ str "\nhttp_pages: " ++ natToStr httpPages
    ++ str "\nbrowser_pages: " ++ natToStr browserPages
    ++ str "\npages_summary: " ++ prettySummariesJson summaries
    ++ str "\ncrawl_errors: " ++ prettyErrorsJson cr.errors
    ++ str "\n---\n\n# Website Content: " ++ fileName
    ++ str "\n\n## Crawling Summary\n\n- **Total Pages:** " ++ natToStr cr.pages.length
    ++ str "\n- **Processing Time:** " ++ toFixed2ms processingTime
    ++ str " seconds\n- **HTTP Success:** " ++ natToStr httpPages
    ++ str " page(s)\n- **Browser Fallback:** " ++ natToStr browserPages
    ++ str " page(s)\n- **Errors:** " ++ natToStr cr.errors.length
    ++ str " page(s)\n\n"
    ++ (if 0 < cr.browserFallbacks then
          str "### Note: Some pages required browser automation due to anti-bot protection\n"
        else
          str "### Note: All pages were successfully crawled using enhanced HTTP client\n")
    ++ str "\n"
    ++ (if 0 < cr.errors.length then
          str "### Crawling Issues\n"
            ++ joinStrs (str "\n") (cr.errors.map (fun e =>
                 str "- **" ++ e.url ++ str "**: " ++ e.error
                   ++ str " (" ++ methodStr e.method ++ str ")"))
            ++ str "\n\n"
        else [])
    ++ str "\n\n---\n"

/-- `DocumentConverter.convertUrl(url, depth, maxPages, fileName)`: crawl,
then return the diagnostic result (zero pages) or the combined document; the
`processingTime` measured around the crawl is a parameter of the model. -/
def convertUrl (env : CrawlEnv) (url : Str) (depth maxPages : Nat)
    (fileName : Str) (processingTime : Nat) : Except Str ConversionResult :=
  let cr := (crawlWebsite env url depth maxPages).1
  if cr.pages = [] then
    let sd := convUrlSummary cr
    .ok
      { markdown := convUrlFailureMarkdown env url depth maxPages fileName processingTime cr
        metadata :=
          { title := some fileName, author := none, created := none, modified := none,
            wordCount := 0, documentType := str "url", sourceFile := fileName,
            error := some sd.1 }
        processingTimeMs := some processingTime
        pagesCrawled := some 0
        crawlErrors := some (tagCrawlErrors cr.errors)
        httpAttempts := none
        browserFallbacks := none }
  else
    let markdown := convUrlSuccessHeader env url depth maxPages fileName processingTime cr
      ++ (cr.pages.map convUrlPageMarkdown).flatten
    .ok
      { markdown := markdown
        metadata :=
          { title := some (fileName ++ str " (" ++ natToStr cr.pages.length ++ str " pages)"),
            author := none, created := some env.nowIso, modified := none,
            wordCount := countWords markdown, documentType := str "url",
            sourceFile := url, error := none }
        processingTimeMs := some processingTime
        pagesCrawled := some cr.pages.length
        crawlErrors := some (tagCrawlErrors cr.errors)
        httpAttempts := some cr.httpAttempts
        browserFallbacks := some cr.browserFallbacks }

/-! ### DocumentChunker.chunkMarkdown -/

/-- Index of the last newline inside the maximal whitespace run at the head
of `s` (how the regex `\s*\n` consumes after backtracking). -/
def lastNlInWsRun (s : Str) : Option Nat :=
  lastIndexOfSub (s.takeWhile isJsWS) (str "\n")

/-- Match of the front-matter opener `^---\s*\n`: the remainder after the
consumed newline. -/
def fmOpen (s : Str) : Option Str :=
  if (str "---").isPrefixOf s then
    match lastNlInWsRun (s.drop 3) with
    | some i => some ((s.drop 3).drop (i + 1))
    | none => none
  else none

/-- Lazy search for the front-matter closer `\n---\s*\n`: the earliest
position admitting a match, returning the text before it (the front matter)
and the text after it (the body). -/
def fmClose : Str → Option (Str × Str)
  | [] => none
  | c :: t =>
    if c = '\n' ∧ (str "---").isPrefixOf t then
      match lastNlInWsRun (t.drop 3) with
      | some i => some ([], (t.drop 3).drop (i + 1))
      | none => (fmClose t).map (fun p => (c :: p.1, p.2))
    else (fmClose t).map (fun p => (c :: p.1, p.2))

/-- `DocumentChunker.extractFrontMatter(markdown)`: split off the YAML front
matter block when the document matches `^---\s*\n(.*?)\n---\s*\n(.*)`,
otherwise return empty front matter and the document unchanged. -/
def extractFrontMatter (markdown : Str) : Str × Str :=
  match fmOpen markdown with
  | some t =>
    match fmClose t with
    | some p => p
    | none => ([], markdown)
  | none => ([], markdown)

/-- One line of the front-matter scanner `^([^:]+):\s*(.*)$`: key before the
first colon (trimmed), value after it (trimmed, with one layer of matching
quotes stripped).  The source's numeric coercion of all-digit values is not
modelled: no claim reads a numeric front-matter value. -/
def parseFMLine (line : Str) : Option (Str × Str) :=
  let k := line.takeWhile (fun c => c ≠ ':')
  match line.dropWhile (fun c => c ≠ ':') with
  | ':' :: v =>
    if k = [] then none
    else
      let value := jsTrim v
      let value :=
        if (value.head? = some '\'' ∧ value.getLast? = some '\'')
            ∨ (value.head? = some '"' ∧ value.getLast? = some '"') then
          (value.drop 1).dropLast
        else value
      some (jsTrim k, value)
  | _ => none

/-- `DocumentChunker.parseFrontMatter(frontMatter)`: the key/value pairs of
the matching lines, in order. -/
def parseFrontMatter (frontMatter : Str) : List (Str × Str) :=
  if frontMatter = [] then []
  else (jsSplit '\n' frontMatter).filterMap parseFMLine

/-- Lookup of a front-matter key (later assignments overwrite earlier ones,
so the last binding wins). -/
def fmLookup (m : List (Str × Str)) (k : Str) : Option Str :=
  m.reverse.lookup k

/-- JS `metadata[k] || dflt` (an absent or empty value falls back). -/
def fmGetOr (m : List (Str × Str)) (k : Str) (dflt : Str) : Str :=
  match fmLookup m k with
  | some v => if v = [] then dflt else v
  | none => dflt

/-- `DocumentChunker.chunkMarkdown(markdown, projectId, fileName, options)`:
extract and parse the front matter, split the body, and attach per-chunk
metadata.  The `uuidv4()` chunk ids and `new Date().toISOString()` are
environment inputs, passed as `ids` and `now`; `none` propagates divergence
of `splitContent`. -/
def chunkMarkdown (markdown projectId fileName : Str) (o : ChunkingOptions)
    (ids : Nat → Str) (now : Str) : Option (List DocumentChunk) :=
  let fm := extractFrontMatter markdown
  let metadata := parseFrontMatter fm.1
  (splitContent fm.2 o).map (fun chunks =>
    chunks.enum.map (fun ic =>
      { id := ids ic.1
        content := jsTrim ic.2
        metadata :=
          { source_file := fileName
            document_type := fmGetOr metadata (str "document_type") (str "unknown")
            chunk_index := ic.1
            word_count := countWords ic.2
            project_id := projectId
            crawl_time := fmGetOr metadata (str "crawl_time") now
            title := fmLookup metadata (str "title")
            created := fmLookup metadata (str "created")
            modified := fmLookup metadata (str "modified") } }))

/-! ### JobManager.updateJobStatus (src/shared/job-manager.ts; the same class
is embedded in src/functions/runPrompt/index.ts)

The job table is an association list from jobId (the Azure rowKey; the
partitionKey is the constant "job") to the stored record.  `updateEntity`
with `"Merge"` mode replaces exactly the properties present in the update
object and leaves every other stored property unchanged; it fails when the
entity does not exist. -/

/-- DocumentStatus of a processing job. -/
inductive JobStatus
  | queued
  | processing
  | chunking
  | indexing
  | completed
  | failed
deriving DecidableEq, Repr

/-- Stored ProcessingJob record (rowKey held as the table key; results held
in its stored form, a JSON string). -/
structure JobRecord where
  userId : Str
  projectId : Str
  inputType : Str
  inputSource : Str
  fileName : Option Str
  fileSize : Option Nat
  mimeType : Option Str
  status : JobStatus
  progress : Nat
  createdAt : Nat
  updatedAt : Nat
  errorMessage : Option Str
  results : Option Str
deriving DecidableEq, Repr

/-- Job table: jobId to stored record. -/
def JobStore := List (Str × JobRecord)

/-- Table lookup by jobId. -/
def lookupJob (tbl : JobStore) (jobId : Str) : Option JobRecord :=
  tbl.lookup jobId

/-- Partial update object: exactly the properties a Merge write replaces. -/
structure JobPatch where
  status : Option JobStatus
  progress : Option Nat
  updatedAt : Option Nat
  errorMessage : Option Str
  results : Option Str
deriving DecidableEq, Repr

/-- Azure `updateEntity(patch, "Merge")` on one record: properties present in
the patch replace the stored ones, all others are unchanged. -/
def applyMerge (r : JobRecord) (p : JobPatch) : JobRecord :=
  { r with
    status := p.status.getD r.status
    progress := p.progress.getD r.progress
    updatedAt := p.updatedAt.getD r.updatedAt
    errorMessage := Option.or p.errorMessage r.errorMessage
    results := Option.or p.results r.results }

/-- Merge-update of the table entry with key `jobId`; a missing entity is an
error (Azure responds 404). -/
def mergeUpdate (tbl : JobStore) (jobId : Str) (p : JobPatch) : Except Str JobStore :=
  match lookupJob tbl jobId with
  | none => .error (str "404")
  | some _ =>
    .ok (tbl.map (fun e => if e.1 = jobId then (e.1, applyMerge e.2 p) else e))

/-- `JobManager.updateJobStatus(jobId, status, progress?, errorMessage?,
results?)`: build the update object with `status` and a fresh `updatedAt`
always present and each optional argument only when supplied, then Merge it.
The caller-supplied `results` object is stored as its `JSON.stringify`
serialization; the serialized string is taken as given. -/
def updateJobStatus (tbl : JobStore) (jobId : Str) (status : JobStatus)
    (progress : Option Nat) (errorMessage : Option Str) (results : Option Str)
    (now : Nat) : Except Str JobStore :=
  mergeUpdate tbl jobId
    { status := some status
      progress := progress
      updatedAt := some now
      errorMessage := errorMessage
      results := results }

/-! ### Pipeline status writes (stage handlers)

Each stage handler writes a sequence of statuses through
`updateJobStatus`:
- the processor (`documentProcessorHandler`) writes `processing` with
  increasing progress (a variable number of times: fixed milestones plus
  per-page progress callbacks on the URL path) and finally `chunking`; on
  failure it writes the `processing` prefix reached and then `failed`
  (both for conversion exceptions and for the zero-pages crawl branch);
- the chunker (`documentChunkerHandler`) writes `chunking` (10, 80) and
  finally `indexing`; on failure a `chunking` prefix then `failed`;
- the indexer (`documentIndexerHandler`) writes `indexing` (10, 80) and
  finally `completed`; on failure an `indexing` prefix then `failed`;
- the reactivate operation (`reactivateStuckJobsHandler`) writes `queued`,
  guarded by the job currently having status `processing`.
A crash can also stop a handler before its catch block writes `failed`
(modelled by the `wroteFailed` flag).  No handler reads the stored status
before writing.  Messages are delivered at least once: a sent message may
trigger its handler again at any later time, which the step relation models
by never consuming the sent flags. -/

/-- Status writes of a successful stage run: at least the initial stage
status, then the successor status. -/
def stageOkWrites (running next : JobStatus) (k : Nat) : List JobStatus :=
  List.replicate (k + 1) running ++ [next]

/-- Status writes of a failed stage run: a prefix of stage statuses, then
`failed` when the catch block managed to write it. -/
def stageFailWrites (running : JobStatus) (k : Nat) (wroteFailed : Bool) :
    List JobStatus :=
  List.replicate k running ++ (if wroteFailed then [JobStatus.failed] else [])

/-- Pipeline state: the job's recorded status history (oldest first) and
which stage messages have been sent so far. -/
structure PipeState where
  history : List JobStatus
  procSent : Bool
  chunkSent : Bool
  idxSent : Bool
deriving DecidableEq, Repr

/-- State after upload: job created with status `queued`, processing message
sent. -/
def pipeInit : PipeState := ⟨[JobStatus.queued], true, false, false⟩

/-- One handler run (or reactivation) of the pipeline.  Delivery is
at-least-once, so a step requires its trigger message to have been sent but
does not consume it. -/
inductive PipeStep : PipeState → PipeState → Prop
  | procOk (s : PipeState) (k : Nat) (h : s.procSent = true) :
      PipeStep s ⟨s.history ++ stageOkWrites .processing .chunking k,
        s.procSent, true, s.idxSent⟩
  | procFail (s : PipeState) (k : Nat) (b : Bool) (h : s.procSent = true) :
      PipeStep s ⟨s.history ++ stageFailWrites .processing k b,
        s.procSent, s.chunkSent, s.idxSent⟩
  | chunkOk (s : PipeState) (k : Nat) (h : s.chunkSent = true) :
      PipeStep s ⟨s.history ++ stageOkWrites .chunking .indexing k,
        s.procSent, s.chunkSent, true⟩
  | chunkFail (s : PipeState) (k : Nat) (b : Bool) (h : s.chunkSent = true) :
      PipeStep s ⟨s.history ++ stageFailWrites .chunking k b,
        s.procSent, s.chunkSent, s.idxSent⟩
  | idxOk (s : PipeState) (k : Nat) (h : s.idxSent = true) :
      PipeStep s ⟨s.history ++ stageOkWrites .indexing .completed k,
        s.procSent, s.chunkSent, s.idxSent⟩
  | idxFail (s : PipeState) (k : Nat) (b : Bool) (h : s.idxSent = true) :
      PipeStep s ⟨s.history ++ stageFailWrites .indexing k b,
        s.procSent, s.chunkSent, s.idxSent⟩
  | reactivate (s : PipeState) (h : s.history.getLast? = some JobStatus.processing) :
      PipeStep s ⟨s.history ++ [JobStatus.queued], true, s.chunkSent, s.idxSent⟩

/-- Reachable pipeline states. -/
def PipeReach (s : PipeState) : Prop :=
  Relation.ReflTransGen PipeStep pipeInit s

/-- Collapse consecutive equal statuses: the trajectory of the stored status
field (re-writing an equal status does not change the recorded status). -/
def dedupC : List JobStatus → List JobStatus
  | [] => []
  | [a] => [a]
  | a :: b :: t => if a = b then dedupC (b :: t) else a :: dedupC (b :: t)

/-- Subsequence test. -/
def isSubseqOf : List JobStatus → List JobStatus → Bool
  | [], _ => true
  | _ :: _, [] => false
  | a :: as, b :: bs => if a = b then isSubseqOf as bs else isSubseqOf (a :: as) bs

/-- The canonical success trajectory of the claim. -/
def canonicalSeq : List JobStatus :=
  [.queued, .processing, .chunking, .indexing, .completed]

/-- Claim C5's property of a recorded status history: the collapsed history
is a subsequence of `queued, processing, chunking, indexing, completed`, or
it ends at a sole terminal `failed` whose predecessors form a subsequence of
the non-terminal prefix. -/
def statusSeqOk (h : List JobStatus) : Prop :=
  isSubseqOf (dedupC h) canonicalSeq = true
    ∨ ((dedupC h).getLast? = some JobStatus.failed
        ∧ JobStatus.failed ∉ (dedupC h).dropLast
        ∧ isSubseqOf (dedupC h).dropLast canonicalSeq.dropLast = true)

/-- History of a run in which each stage message is delivered exactly once,
the reactivate path is unused, and the pipeline stops at the given stage
outcome (`none` components mean the earlier stage already failed). -/
def linearHistory : Nat → Nat → Bool → Nat → Nat → List JobStatus
  | 0, k, b, _, _ => JobStatus.queued :: stageFailWrites .processing k b
  | 1, k, b, kp, _ => JobStatus.queued :: stageOkWrites .processing .chunking kp
      ++ stageFailWrites .chunking k b
  | 2, k, b, kp, kc => JobStatus.queued :: stageOkWrites .processing .chunking kp
      ++ stageOkWrites .chunking .indexing kc ++ stageFailWrites .indexing k b
  | _ + 3, k, _, kp, kc => JobStatus.queued :: stageOkWrites .processing .chunking kp
      ++ stageOkWrites .chunking .indexing kc ++ stageOkWrites .indexing .completed k

/-! ### Concrete instances used by counterexamples and witnesses -/

/-- Content with no paragraph, line or sentence boundary. -/
def c1Content : Str := str "aaaa"

/-- Options whose overlap equals the chunk size: the cursor cannot
advance. -/
def c1BadOptions : ChunkingOptions :=
  { maxChunkSize := 2, overlapSize := 2, respectParagraphs := false }

/-- Options satisfying `200 + overlapSize ≤ maxChunkSize`. -/
def c1GoodOptions : ChunkingOptions :=
  { maxChunkSize := 250, overlapSize := 50, respectParagraphs := true }

/-- Boundary-free content longer than one chunk. -/
def c1GoodContent : Str := List.replicate 600 'a'

/-- Environment of a healthy site: every HTTP fetch returns status 200
HTML of 60 characters with no bot-detection indicator. -/
def okHtmlEnv : CrawlEnv :=
  { httpFetch := fun _ => .ok ⟨true, 200, str "OK", str "text/html", List.replicate 60 'a'⟩
    browserFetch := fun _ => .error (str "browser disabled")
    htmlToMarkdown := fun h => h
    extractTitle := fun _ => str "Example Title"
    urlPathname := fun _ => str "/"
    nowIso := str "2024-01-01T00:00:00.000Z"
    localeTime := fun t => t }

/-- Environment of a site answering 404 to every request. -/
def notFoundEnv : CrawlEnv :=
  { httpFetch := fun _ => .ok ⟨false, 404, str "Not Found", str "text/html", []⟩
    browserFetch := fun _ => .error (str "browser disabled")
    htmlToMarkdown := fun h => h
    extractTitle := fun _ => []
    urlPathname := fun _ => str "/"
    nowIso := str "2024-01-01T00:00:00.000Z"
    localeTime := fun t => t }

/-- Start URL of the crawl scenarios. -/
def exampleUrl : Str := str "https://site.example/"

/-- Crawl state that has already seen four consecutive failures. -/
def c3St : CrawlSt := ⟨[str "https://site.example/a"], [], [], 0, 0, 4⟩

/-- Pipeline state after the processor succeeded. -/
def c5s1 : PipeState := ⟨[.queued, .processing, .chunking], true, true, false⟩

/-- Pipeline state after the chunker succeeded. -/
def c5s2 : PipeState :=
  ⟨[.queued, .processing, .chunking, .chunking, .indexing], true, true, true⟩

/-- Pipeline state after the indexer failed. -/
def c5s3 : PipeState :=
  ⟨[.queued, .processing, .chunking, .chunking, .indexing, .failed], true, true, true⟩

/-- Pipeline state after a duplicate chunking message was re-delivered to the
failed job. -/
def c5Bad : PipeState :=
  ⟨[.queued, .processing, .chunking, .chunking, .indexing, .failed,
    .chunking, .indexing], true, true, true⟩

/-- Stored job used by the job-store witness. -/
def c8Job : JobRecord :=
  { userId := str "u1", projectId := str "p1", inputType := str "file",
    inputSource := str "blob-1", fileName := some (str "f.docx"),
    fileSize := some 10, mimeType := some (str "application/msword"),
    status := .queued, progress := 0, createdAt := 1, updatedAt := 1,
    errorMessage := none, results := none }

/-- Job table holding `c8Job` under id `job1`. -/
def c8Store : JobStore := [(str "job1", c8Job)]

/-- Chunk exercising escaping and an optional field. -/
def c9Chunk : DocumentChunk :=
  { id := str "id-1"
    content := str "Hello \"world\"\nline2"
    metadata :=
      { source_file := str "f.md", document_type := str "markdown",
        chunk_index := 0, word_count := 3, project_id := str "proj",
        crawl_time := str "2024-01-01T00:00:00.000Z",
        title := some (str "T"), created := none, modified := none } }

/-- Options used by the chunk-size witness. -/
def c10Options : ChunkingOptions :=
  { maxChunkSize := 5, overlapSize := 1, respectParagraphs := false }

/-- Content used by the chunk-size witness. -/
def c10Content : Str := str "abcdefgh"

/-- Containment of a contiguous substring. -/
def containsSub (s sub : Str) : Prop := ∃ a b, s = a ++ (sub ++ b)

/-! ## Theorems -/

/-- Membership from `getLast?`. -/
theorem getLast?_mem_of_eq {α : Type} (l : List α) (a : α)
    (h : l.getLast? = some a) : a ∈ l := by
  have hx : a ∈ l.getLast? := by simp [h, Option.mem_def]
  obtain ⟨hne, rfl⟩ := List.mem_getLast?_eq_getLast hx
  exact List.getLast_mem hne

/-- A match found by `lastIndexOfSub` fits inside the string. -/
theorem lastIndexOfSub_le (s pat : Str) (i : Nat)
    (h : lastIndexOfSub s pat = some i) : i + pat.length ≤ s.length := by
  unfold lastIndexOfSub at h
  have hmem := getLast?_mem_of_eq _ _ h
  have hf := List.mem_filter.mp hmem
  have hrange : i < s.length + 1 := List.mem_range.mp hf.1
  have hpre : pat <+: s.drop i := List.isPrefixOf_iff_prefix.mp hf.2
  have hlen : pat.length ≤ (s.drop i).length := hpre.length_le
  rw [List.length_drop] at hlen
  omega

/-- Length of a slice. -/
theorem jsSlice_length (s : Str) (a b : Nat) :
    (jsSlice s a b).length = min b s.length - a := by
  simp [jsSlice]

/-- Lower bound of the boundary search: under
`200 + overlapSize ≤ maxChunkSize` every adjusted chunk end lies strictly
beyond the cursor plus the overlap, so the next cursor strictly advances. -/
theorem boundaryChunkEnd_lower (content : Str) (o : ChunkingOptions) (pos : Nat)
    (h : 200 + o.overlapSize ≤ o.maxChunkSize) :
    pos + o.overlapSize < boundaryChunkEnd content o pos := by
  unfold boundaryChunkEnd
  dsimp only
  have hmax := Nat.le_max_left (pos + o.maxChunkSize - 200) pos
  split
  · split
    · omega
    · split
      · omega
      · split
        · omega
        · omega
  · omega

/-- Upper bound of the boundary search: the adjusted chunk end lies at most
200 characters past the raw boundary. -/
theorem boundaryChunkEnd_le (content : Str) (o : ChunkingOptions) (pos : Nat) :
    boundaryChunkEnd content o pos ≤ pos + o.maxChunkSize + 200 := by
  unfold boundaryChunkEnd
  dsimp only
  have hmax1 : max (pos + o.maxChunkSize - 200) pos ≤ pos + o.maxChunkSize := by
    omega
  split
  · split
    · next i hi =>
      have hb := lastIndexOfSub_le _ _ _ hi
      rw [show (str "\n\n").length = 2 from rfl, jsSlice_length] at hb
      omega
    · split
      · next i hi =>
        have hb := lastIndexOfSub_le _ _ _ hi
        rw [show (str "\n").length = 1 from rfl, jsSlice_length] at hb
        omega
      · split
        · next i hi =>
          have hb := lastIndexOfSub_le _ _ _ hi
          rw [show (str ". ").length = 2 from rfl, jsSlice_length] at hb
          omega
        · omega
  · omega

/-- Totality of the splitting loop under the progress condition: with fuel at
least the remaining length, the loop returns. -/
theorem splitContentAux_isSome (content : Str) (o : ChunkingOptions)
    (h : 200 + o.overlapSize ≤ o.maxChunkSize) :
    ∀ fuel pos, content.length - pos ≤ fuel →
      (splitContentAux content o fuel pos).isSome = true := by
  intro fuel
  induction fuel with
  | zero =>
    intro pos hle
    simp only [splitContentAux]
    rw [if_neg (by omega)]
    simp
  | succ fuel ih =>
    intro pos hle
    simp only [splitContentAux]
    split
    · next hpos =>
      split
      · simp
      · next hfit =>
        have hstep := boundaryChunkEnd_lower content o pos h
        have hrec := ih (boundaryChunkEnd content o pos - o.overlapSize) (by omega)
        split
        · simp
        · next heq => rw [heq] at hrec; simp at hrec
    · simp

/-- Claim C1 (amended): provided the chunking options satisfy
`200 + overlapSize ≤ maxChunkSize` (as the defaults do), every iteration of
the splitting loop strictly advances the cursor — even when no paragraph
break, line break or sentence end exists in the boundary search window — and
`splitContent` terminates. -/
theorem splitContent_forward_progress (content : Str) (o : ChunkingOptions)
    (h : 200 + o.overlapSize ≤ o.maxChunkSize) :
    (∀ pos, pos < stepPos content o pos)
      ∧ (splitContent content o).isSome = true := by
  constructor
  · intro pos
    have := boundaryChunkEnd_lower content o pos h
    unfold stepPos
    omega
  · unfold splitContent
    split
    · simp
    · have hs := splitContentAux_isSome content o h (content.length + 1) 0 (by omega)
      cases haux : splitContentAux content o (content.length + 1) 0 with
      | none => rw [haux] at hs; simp at hs
      | some v => simp [haux]

/-- Witness of C1's amended theorem at boundary-free content of 600
characters with options (250, 50, true). -/
theorem splitContent_forward_progress_witness :
    0 < stepPos c1GoodContent c1GoodOptions 0
      ∧ (splitContent c1GoodContent c1GoodOptions).isSome = true :=
  ⟨(splitContent_forward_progress c1GoodContent c1GoodOptions (by decide)).1 0,
   (splitContent_forward_progress c1GoodContent c1GoodOptions (by decide)).2⟩

/-- Counterexample to C1 as stated: with options whose overlap equals the
chunk size (maxChunkSize 2, overlapSize 2) on boundary-free content "aaaa",
the first iteration does not advance the cursor (the next start equals the
current start 0) and the splitting loop never terminates. -/
theorem splitContent_stall_counterexample :
    ¬ (0 < stepPos c1Content c1BadOptions 0)
      ∧ splitContent c1Content c1BadOptions = none := by
  constructor
  · decide
  · decide

/-- Trimming never lengthens a string. -/
theorem jsTrim_length_le (s : Str) : (jsTrim s).length ≤ s.length := by
  unfold jsTrim
  calc ((s.dropWhile isJsWS).reverse.dropWhile isJsWS).reverse.length
      = ((s.dropWhile isJsWS).reverse.dropWhile isJsWS).length := by
        rw [List.length_reverse]
    _ ≤ (s.dropWhile isJsWS).reverse.length :=
        (List.dropWhile_suffix isJsWS).sublist.length_le
    _ = (s.dropWhile isJsWS).length := by rw [List.length_reverse]
    _ ≤ s.length := (List.dropWhile_suffix isJsWS).sublist.length_le

/-- Every chunk the splitting loop emits is bounded by
`maxChunkSize + 200`. -/
theorem splitContentAux_bound (content : Str) (o : ChunkingOptions) :
    ∀ fuel pos chunks, splitContentAux content o fuel pos = some chunks →
      ∀ c ∈ chunks, c.length ≤ o.maxChunkSize + 200 := by
  intro fuel
  induction fuel with
  | zero =>
    intro pos chunks heq c hc
    simp only [splitContentAux] at heq
    split at heq
    · cases heq
    · cases heq
      simp at hc
  | succ fuel ih =>
    intro pos chunks heq c hc
    simp only [splitContentAux] at heq
    split at heq
    · next hpos =>
      split at heq
      · next hfit =>
        cases heq
        simp only [List.mem_singleton] at hc
        subst hc
        rw [List.length_drop]
        omega
      · next hfit =>
        split at heq
        · next rest hrec =>
          cases heq
          rcases List.mem_cons.mp hc with hhd | htl
          · subst hhd
            have hb := boundaryChunkEnd_le content o pos
            rw [jsSlice_length]
            omega
          · exact ih _ _ hrec c htl
        · cases heq
    · cases heq
      simp at hc

/-- Claim C10: every chunk string produced by the splitting loop, and hence
the content of every `DocumentChunk` returned by `chunkMarkdown`, has length
at most `maxChunkSize + 200`. -/
theorem chunk_size_bounded (o : ChunkingOptions) :
    (∀ content chunks, splitContent content o = some chunks →
       ∀ c ∈ chunks, c.length ≤ o.maxChunkSize + 200)
    ∧ (∀ markdown projectId fileName ids now dcs,
         chunkMarkdown markdown projectId fileName o ids now = some dcs →
         ∀ d ∈ dcs, d.content.length ≤ o.maxChunkSize + 200) := by
  have hsplit : ∀ content chunks, splitContent content o = some chunks →
      ∀ c ∈ chunks, c.length ≤ o.maxChunkSize + 200 := by
    intro content chunks heq c hc
    unfold splitContent at heq
    split at heq
    · next hfits =>
      cases heq
      simp only [List.mem_singleton] at hc
      subst hc
      omega
    · cases haux : splitContentAux content o (content.length + 1) 0 with
      | none => rw [haux] at heq; cases heq
      | some base =>
        rw [haux] at heq
        simp only [Option.map_some'] at heq
        cases heq
        exact splitContentAux_bound content o _ _ _ haux c (List.mem_of_mem_filter hc)
  refine ⟨hsplit, ?_⟩
  intro markdown projectId fileName ids now dcs heq d hd
  unfold chunkMarkdown at heq
  dsimp only at heq
  cases hsc : splitContent (extractFrontMatter markdown).2 o with
  | none => rw [hsc] at heq; cases heq
  | some chunks =>
    rw [hsc] at heq
    simp only [Option.map_some'] at heq
    cases heq
    simp only [List.mem_map] at hd
    obtain ⟨ic, hicmem, rfl⟩ := hd
    have hsnd : ic.2 ∈ chunks := by
      rw [List.enum_eq_zip_range] at hicmem
      exact (List.of_mem_zip (by exact hicmem)).2
    calc (jsTrim ic.2).length ≤ ic.2.length := jsTrim_length_le ic.2
      _ ≤ o.maxChunkSize + 200 := hsplit _ _ hsc ic.2 hsnd

/-- Witness of C10 at content "abcdefgh" with options (5, 1, false): the
loop yields chunks "abcde" and "efgh", all within 5 + 200. -/
theorem chunk_size_bounded_witness :
    (str "abcde").length ≤ c10Options.maxChunkSize + 200
      ∧ (str "abcde").length ≤ c10Options.maxChunkSize + 200 :=
  ⟨(chunk_size_bounded c10Options).1 c10Content [str "abcde", str "efgh"]
      (by decide) (str "abcde") (by decide),
   (chunk_size_bounded c10Options).2 c10Content (str "p") (str "f")
      (fun _ => str "u") (str "t")
      [⟨str "u", str "abcde", ⟨str "f", str "unknown", 0, 1, str "p", str "t", none, none, none⟩⟩,
       ⟨str "u", str "efgh", ⟨str "f", str "unknown", 1, 1, str "p", str "t", none, none, none⟩⟩]
      (by decide)
      ⟨str "u", str "abcde", ⟨str "f", str "unknown", 0, 1, str "p", str "t", none, none, none⟩⟩
      (by decide)⟩

/-- Claim C3: once the consecutive-failure counter reaches 5 the crawl loop
halts.  First conjunct: a page failure occurring with four prior consecutive
failures makes the loop return immediately — for every remaining queue, the
result is the state accumulated so far (with the new error recorded) and no
further URL is fetched.  Second conjunct: the loop guard refuses to run at
all once the counter is at the maximum. -/
theorem crawl_circuit_breaker (env : CrawlEnv) (maxDepth maxPages : Nat)
    (url : Str) (depth : Nat) (rest : List (Str × Nat)) (st : CrawlSt) (e : Str)
    (h4 : st.consecutiveErrors = 4)
    (hroom : st.crawledPages.length < maxPages)
    (hv : url ∉ st.visitedUrls)
    (hd : depth ≤ maxDepth)
    (hf : fetchPage env url = .error e) :
    (crawlLoop env maxDepth maxPages ((url, depth) :: rest) st =
      ({ st with
          visitedUrls := url :: st.visitedUrls,
          crawlErrors := st.crawlErrors ++ [⟨url, e, env.nowIso, errMethodOf e⟩],
          consecutiveErrors := 5 }, [url]))
    ∧ ∀ (queue : List (Str × Nat)) (st2 : CrawlSt),
        maxConsecutiveErrors ≤ st2.consecutiveErrors →
        crawlLoop env maxDepth maxPages queue st2 = (st2, []) := by
  constructor
  · simp only [crawlLoop]
    rw [if_pos ⟨hroom, by rw [h4]; decide⟩, if_neg (by push_neg; exact ⟨hv, by omega⟩)]
    rw [hf]
    dsimp only
    rw [if_pos (by simp [h4, maxConsecutiveErrors])]
    simp [h4]
  · intro queue st2 hge
    cases queue with
    | nil => simp [crawlLoop]
    | cons entry tl =>
      obtain ⟨u, d⟩ := entry
      simp only [crawlLoop]
      rw [if_neg (by push_neg; intro _; omega)]

/-- Witness of C3: with four prior failures, a 404 on the next URL halts the
crawl, leaving the rest of the queue unfetched. -/
theorem crawl_circuit_breaker_witness :
    crawlLoop notFoundEnv 2 10 [(exampleUrl, 0), (str "https://site.example/b", 0)] c3St =
      ({ c3St with
          visitedUrls := exampleUrl :: c3St.visitedUrls,
          crawlErrors := c3St.crawlErrors
            ++ [⟨exampleUrl, str "HTTP 404: Not Found", notFoundEnv.nowIso,
                 errMethodOf (str "HTTP 404: Not Found")⟩],
          consecutiveErrors := 5 }, [exampleUrl]) :=
  (crawl_circuit_breaker notFoundEnv 2 10 exampleUrl 0
    [(str "https://site.example/b", 0)] c3St (str "HTTP 404: Not Found")
    (by decide) (by decide) (by decide) (by decide) rfl).1

/-- Characterization of one productive iteration of the crawl loop: the URL
is marked visited, at most one page (at the dequeued depth) is recorded, and
the loop either breaks with fetch log `[url]` or continues on the remaining
queue from the updated state. -/
theorem crawlLoop_cons_char (env : CrawlEnv) (maxDepth maxPages : Nat)
    (url : Str) (depth : Nat) (rest : List (Str × Nat)) (st : CrawlSt)
    (hg : st.crawledPages.length < maxPages
            ∧ st.consecutiveErrors < maxConsecutiveErrors)
    (hv : url ∉ st.visitedUrls) (hd : depth ≤ maxDepth) :
    ∃ st2, st2.visitedUrls = url :: st.visitedUrls
      ∧ (st2.crawledPages = st.crawledPages
          ∨ ∃ pg, st2.crawledPages = st.crawledPages ++ [pg] ∧ pg.depth = depth)
      ∧ (crawlLoop env maxDepth maxPages ((url, depth) :: rest) st = (st2, [url])
          ∨ crawlLoop env maxDepth maxPages ((url, depth) :: rest) st =
              ((crawlLoop env maxDepth maxPages rest st2).1,
               url :: (crawlLoop env maxDepth maxPages rest st2).2)) := by
  simp only [crawlLoop]
  rw [if_pos hg, if_neg (by push_neg; exact ⟨hv, by omega⟩)]
  cases hf : fetchPage env url with
  | error e =>
    dsimp only
    split
    · next hbreak =>
      exact ⟨{ st with
                visitedUrls := url :: st.visitedUrls,
                crawlErrors := st.crawlErrors ++ [⟨url, e, env.nowIso, errMethodOf e⟩],
                consecutiveErrors := st.consecutiveErrors + 1 },
             rfl, Or.inl rfl, Or.inl rfl⟩
    · next hcont =>
      exact ⟨{ st with
                visitedUrls := url :: st.visitedUrls,
                crawlErrors := st.crawlErrors ++ [⟨url, e, env.nowIso, errMethodOf e⟩],
                consecutiveErrors := st.consecutiveErrors + 1 },
             rfl, Or.inl rfl, Or.inr rfl⟩
  | ok pr =>
    obtain ⟨contentOpt, method⟩ := pr
    cases contentOpt with
    | some c =>
      dsimp only
      split
      · next hmeth =>
        exact ⟨{ st with
                  visitedUrls := url :: st.visitedUrls,
                  httpAttempts := st.httpAttempts + 1,
                  crawledPages := st.crawledPages ++ [{ c with depth := depth }],
                  consecutiveErrors := 0 },
               rfl, Or.inr ⟨{ c with depth := depth }, rfl, rfl⟩, Or.inr rfl⟩
      · next hmeth =>
        exact ⟨{ st with
                  visitedUrls := url :: st.visitedUrls,
                  browserFallbacks := st.browserFallbacks + 1,
                  crawledPages := st.crawledPages ++ [{ c with depth := depth }],
                  consecutiveErrors := 0 },
               rfl, Or.inr ⟨{ c with depth := depth }, rfl, rfl⟩, Or.inr rfl⟩
    | none =>
      dsimp only
      split
      · next hmeth =>
        exact ⟨{ st with
                  visitedUrls := url :: st.visitedUrls,
                  httpAttempts := st.httpAttempts + 1 },
               rfl, Or.inl rfl, Or.inr rfl⟩
      · next hmeth =>
        exact ⟨{ st with
                  visitedUrls := url :: st.visitedUrls,
                  browserFallbacks := st.browserFallbacks + 1 },
               rfl, Or.inl rfl, Or.inr rfl⟩

/-- Crawl-loop invariant: the fetch log contains no previously visited URL
and no duplicates; the page count never exceeds `maxPages`; every page not
already present was recorded within `maxDepth`. -/
theorem crawlLoop_inv (env : CrawlEnv) (maxDepth maxPages : Nat) :
    ∀ (queue : List (Str × Nat)) (st : CrawlSt),
      (∀ u ∈ (crawlLoop env maxDepth maxPages queue st).2, u ∉ st.visitedUrls)
      ∧ (crawlLoop env maxDepth maxPages queue st).2.Nodup
      ∧ (st.crawledPages.length ≤ maxPages →
          (crawlLoop env maxDepth maxPages queue st).1.crawledPages.length ≤ maxPages)
      ∧ (∀ p ∈ (crawlLoop env maxDepth maxPages queue st).1.crawledPages,
          p ∈ st.crawledPages ∨ p.depth ≤ maxDepth) := by
  intro queue
  induction queue with
  | nil =>
    intro st
    refine ⟨by simp [crawlLoop], by simp [crawlLoop], by simp [crawlLoop], ?_⟩
    simp only [crawlLoop]
    exact fun p hp => Or.inl hp
  | cons entry rest ih =>
    intro st
    obtain ⟨url, depth⟩ := entry
    by_cases hg : st.crawledPages.length < maxPages
        ∧ st.consecutiveErrors < maxConsecutiveErrors
    · by_cases hskip : url ∈ st.visitedUrls ∨ maxDepth < depth
      · have heq : crawlLoop env maxDepth maxPages ((url, depth) :: rest) st
            = crawlLoop env maxDepth maxPages rest st := by
          simp only [crawlLoop]
          rw [if_pos hg, if_pos hskip]
        rw [heq]
        exact ih st
      · push_neg at hskip
        obtain ⟨hv, hdep⟩ := hskip
        obtain ⟨st2, hvis, hpg, hcase⟩ :=
          crawlLoop_cons_char env maxDepth maxPages url depth rest st hg hv (by omega)
        cases hcase with
        | inl hbrk =>
          rw [hbrk]
          refine ⟨?_, by simp, ?_, ?_⟩
          · intro u hu
            simp only [List.mem_singleton] at hu
            subst hu
            exact hv
          · intro hle
            rcases hpg with hsame | ⟨pg, happ, hdpg⟩
            · simpa [hsame] using hg.1.le
            · show st2.crawledPages.length ≤ maxPages
              rw [happ]
              simp only [List.length_append, List.length_singleton]
              omega
          · intro p hp
            rcases hpg with hsame | ⟨pg, happ, hdpg⟩
            · rw [show (st2, [url]).1 = st2 from rfl, hsame] at hp
              exact Or.inl hp
            · rw [show (st2, [url]).1 = st2 from rfl, happ] at hp
              rcases List.mem_append.mp hp with h1 | h2
              · exact Or.inl h1
              · simp only [List.mem_singleton] at h2
                subst h2
                exact Or.inr (by omega)
        | inr hcont =>
          rw [hcont]
          obtain ⟨ihlog, ihnodup, ihlen, ihdepth⟩ := ih st2
          refine ⟨?_, ?_, ?_, ?_⟩
          · intro u hu
            rcases List.mem_cons.mp hu with rfl | hu2
            · exact hv
            · have hnotin := ihlog u hu2
              rw [hvis] at hnotin
              simp only [List.mem_cons, not_or] at hnotin
              exact hnotin.2
          · refine List.nodup_cons.mpr ⟨?_, ihnodup⟩
            intro hmem
            have hnotin := ihlog url hmem
            rw [hvis] at hnotin
            simp at hnotin
          · intro hle
            apply ihlen
            rcases hpg with hsame | ⟨pg, happ, hdpg⟩
            · rw [hsame]; exact hg.1.le
            · rw [happ]
              simp only [List.length_append, List.length_singleton]
              omega
          · intro p hp
            rcases ihdepth p hp with hin | hdp
            · rcases hpg with hsame | ⟨pg, happ, hdpg⟩
              · rw [hsame] at hin
                exact Or.inl hin
              · rw [happ] at hin
                rcases List.mem_append.mp hin with h1 | h2
                · exact Or.inl h1
                · simp only [List.mem_singleton] at h2
                  subst h2
                  exact Or.inr (by omega)
            · exact Or.inr hdp
    · have heq : crawlLoop env maxDepth maxPages ((url, depth) :: rest) st = (st, []) := by
        simp only [crawlLoop]
        rw [if_neg hg]
      rw [heq]
      exact ⟨by simp, by simp, fun h => h, fun p hp => Or.inl hp⟩

/-- Claim C4: within a single `crawlWebsite` call, no URL is fetched more
than once (URLs are marked visited before fetching, so the fetch log has no
duplicates), at most `maxPages` pages are returned, and every returned page
is within `maxDepth`. -/
theorem crawler_never_revisits_and_respects_bounds (env : CrawlEnv)
    (startUrl : Str) (maxDepth maxPages : Nat) :
    (crawlWebsite env startUrl maxDepth maxPages).2.Nodup
    ∧ (crawlWebsite env startUrl maxDepth maxPages).1.pages.length ≤ maxPages
    ∧ ∀ p ∈ (crawlWebsite env startUrl maxDepth maxPages).1.pages,
        p.depth ≤ maxDepth := by
  obtain ⟨hlog, hnodup, hlen, hdepth⟩ :=
    crawlLoop_inv env maxDepth maxPages [(startUrl, 0)] ⟨[], [], [], 0, 0, 0⟩
  simp only [crawlWebsite]
  refine ⟨hnodup, hlen (by simp), ?_⟩
  intro p hp
  rcases hdepth p hp with hin | hd
  · simp at hin
  · exact hd

/-- Claim C7: the browser fallback (Phase 2) runs if and only if the Phase-1
HTTP error message (lowercased) indicates bot detection, cloudflare, captcha,
403, forbidden, 429 or rate limiting; any other Phase-1 error is rethrown
unchanged without attempting the browser. -/
theorem fetchPage_browser_fallback_iff (env : CrawlEnv) (url : Str) :
    ((fetchPageI env url).2 = true ↔
      ∃ msg, phase1 env url = .error msg
        ∧ (jsIncludes (jsLower msg) (str "bot detection") = true
            ∨ jsIncludes (jsLower msg) (str "cloudflare") = true
            ∨ jsIncludes (jsLower msg) (str "captcha") = true
            ∨ jsIncludes (jsLower msg) (str "403") = true
            ∨ jsIncludes (jsLower msg) (str "forbidden") = true
            ∨ jsIncludes (jsLower msg) (str "429") = true
            ∨ jsIncludes (jsLower msg) (str "rate limit") = true))
    ∧ (∀ msg, phase1 env url = .error msg →
        shouldUseBrowserFallback (jsLower msg) = false →
        fetchPage env url = .error msg) := by
  constructor
  · unfold fetchPageI
    cases hp : phase1 env url with
    | ok c =>
      simp only []
      constructor
      · intro h; cases h
      · rintro ⟨msg, hmsg, _⟩
        cases hmsg
    | error httpError =>
      simp only []
      by_cases hs : shouldUseBrowserFallback (jsLower httpError) = true
      · rw [if_pos hs]
        constructor
        · intro _
          refine ⟨httpError, rfl, ?_⟩
          unfold shouldUseBrowserFallback at hs
          simpa [Bool.or_eq_true, Bool.or_assoc] using hs
        · intro _
          cases hb : fetchWithBrowser env url with
          | ok c => simp
          | error e2 => simp
      · rw [if_neg hs]
        simp only [Bool.not_eq_true] at hs
        constructor
        · intro h; cases h
        · rintro ⟨msg, hmsg, hdisj⟩
          injection hmsg with hmsg
          subst hmsg
          unfold shouldUseBrowserFallback at hs
          simp only [Bool.or_eq_false_iff] at hs
          rcases hdisj with h | h | h | h | h | h | h <;>
            simp [h] at hs
  · intro msg hmsg hno
    unfold fetchPage fetchPageI
    rw [hmsg]
    simp only []
    rw [if_neg (by rw [hno]; simp)]

/-- Witness of C7: a plain 404 does not trigger the browser fallback; the
HTTP error is rethrown unchanged. -/
theorem fetchPage_browser_fallback_iff_witness :
    fetchPage notFoundEnv exampleUrl = .error (str "HTTP 404: Not Found") :=
  (fetchPage_browser_fallback_iff notFoundEnv exampleUrl).2
    (str "HTTP 404: Not Found") rfl (by decide)

/-- Lookup of the updated table at the updated key. -/
theorem lookup_map_same (tbl : JobStore) (id : Str) (f : JobRecord → JobRecord) :
    lookupJob (tbl.map (fun e => if e.1 = id then (e.1, f e.2) else e)) id
      = (lookupJob tbl id).map f := by
  induction tbl with
  | nil => rfl
  | cons e rest ih =>
    obtain ⟨k, v⟩ := e
    simp only [List.map_cons]
    by_cases hk : k = id
    · subst hk
      rw [if_pos rfl]
      simp [lookupJob, List.lookup_cons]
    · rw [if_neg (by simpa using hk)]
      unfold lookupJob
      rw [List.lookup_cons, List.lookup_cons]
      have hbe : (id == k) = false := beq_false_of_ne (Ne.symm hk)
      rw [hbe]
      exact ih

/-- Lookup of the updated table at any other key. -/
theorem lookup_map_other (tbl : JobStore) (id other : Str) (hne : other ≠ id)
    (f : JobRecord → JobRecord) :
    lookupJob (tbl.map (fun e => if e.1 = id then (e.1, f e.2) else e)) other
      = lookupJob tbl other := by
  induction tbl with
  | nil => rfl
  | cons e rest ih =>
    obtain ⟨k, v⟩ := e
    simp only [List.map_cons]
    unfold lookupJob
    by_cases hk : k = id
    · subst hk
      rw [if_pos rfl, List.lookup_cons, List.lookup_cons,
        beq_false_of_ne hne]
      exact ih
    · rw [if_neg (by simpa using hk), List.lookup_cons, List.lookup_cons]
      by_cases ho : other = k
      · subst ho
        simp
      · rw [beq_false_of_ne ho]
        exact ih

/-- Claim C8: `updateJobStatus` is a merge write.  On an existing job it
succeeds and the stored record changes only in `status`, `updatedAt` (always
refreshed) and whichever of `progress`, `errorMessage`, `results` were
supplied; `userId`, `projectId`, `inputType`, `inputSource`, `fileName`,
`fileSize`, `mimeType`, `createdAt` and all omitted optional fields are
unchanged, and every other job in the table is untouched. -/
theorem updateJobStatus_merge_frame (tbl : JobStore) (jobId : Str)
    (st : JobStatus) (pr : Option Nat) (em : Option Str) (res : Option Str)
    (now : Nat) (j : JobRecord)
    (hj : lookupJob tbl jobId = some j) :
    ∃ tbl2, updateJobStatus tbl jobId st pr em res now = .ok tbl2
      ∧ lookupJob tbl2 jobId = some
          { userId := j.userId, projectId := j.projectId,
            inputType := j.inputType, inputSource := j.inputSource,
            fileName := j.fileName, fileSize := j.fileSize,
            mimeType := j.mimeType,
            status := st, progress := pr.getD j.progress,
            createdAt := j.createdAt, updatedAt := now,
            errorMessage := Option.or em j.errorMessage,
            results := Option.or res j.results }
      ∧ ∀ other, other ≠ jobId → lookupJob tbl2 other = lookupJob tbl other := by
  refine ⟨tbl.map (fun e => if e.1 = jobId then
      (e.1, (fun r => applyMerge r ⟨some st, pr, some now, em, res⟩) e.2) else e),
      ?_, ?_, ?_⟩
  · unfold updateJobStatus mergeUpdate
    rw [hj]
  · exact (lookup_map_same tbl jobId
      (fun r => applyMerge r ⟨some st, pr, some now, em, res⟩)).trans
      (by rw [hj]; rfl)
  · intro other hne
    exact lookup_map_other tbl jobId other hne
      (fun r => applyMerge r ⟨some st, pr, some now, em, res⟩)

/-- Witness of C8 on a one-job table: a progress-only update leaves every
identity field of the job intact. -/
theorem updateJobStatus_merge_frame_witness :
    ∃ tbl2, updateJobStatus c8Store (str "job1") .processing (some 10) none none 2 = .ok tbl2
      ∧ lookupJob tbl2 (str "job1") = some
          { userId := c8Job.userId, projectId := c8Job.projectId,
            inputType := c8Job.inputType, inputSource := c8Job.inputSource,
            fileName := c8Job.fileName, fileSize := c8Job.fileSize,
            mimeType := c8Job.mimeType,
            status := .processing, progress := (some 10).getD c8Job.progress,
            createdAt := c8Job.createdAt, updatedAt := 2,
            errorMessage := Option.or none c8Job.errorMessage,
            results := Option.or none c8Job.results }
      ∧ ∀ other, other ≠ str "job1" →
          lookupJob tbl2 other = lookupJob c8Store other :=
  updateJobStatus_merge_frame c8Store (str "job1") .processing (some 10)
    none none 2 c8Job (by decide)

/-- Claim C2 (amended): against a site that answers every request with valid
HTML (status 200, text/html, no bot-detection indicator, extracted content of
at least 50 characters), a crawl returns exactly one page with one HTTP
attempt and no browser fallback — regardless of `maxPages ≥ 1` — and the
converter reports `pagesCrawled = 1`, because `crawlWebsite` skips link
extraction and the queue never holds more than the start URL. -/
theorem crawl_healthy_site_single_page (env : CrawlEnv) (startUrl : Str)
    (maxDepth maxPages : Nat) (fileName : Str) (pt : Nat) (r : HttpResponse)
    (hmp : 1 ≤ maxPages)
    (hfetch : env.httpFetch startUrl = .ok r)
    (hok : r.ok = true)
    (hct : jsIncludes r.contentType (str "text/html") = true)
    (hbot : firstBotIndicator (jsLower r.body) = none)
    (hlen : 50 ≤ (env.htmlToMarkdown r.body).length) :
    (crawlWebsite env startUrl maxDepth maxPages).1.pages.length = 1
    ∧ (crawlWebsite env startUrl maxDepth maxPages).1.httpAttempts = 1
    ∧ (crawlWebsite env startUrl maxDepth maxPages).1.browserFallbacks = 0
    ∧ (convertUrl env startUrl maxDepth maxPages fileName pt).map
        ConversionResult.pagesCrawled = .ok (some 1) := by
  have hproc : processHttpResponse env startUrl r =
      .ok (some ⟨startUrl, jsOrEmpty (env.extractTitle r.body) (env.urlPathname startUrl),
        env.htmlToMarkdown r.body, 0, .http⟩) := by
    unfold processHttpResponse
    rw [hok, if_neg (by simp), hct, if_neg (by simp), hbot]
    dsimp only
    rw [if_neg (by omega)]
  have hp1 : phase1 env startUrl =
      .ok (some ⟨startUrl, jsOrEmpty (env.extractTitle r.body) (env.urlPathname startUrl),
        env.htmlToMarkdown r.body, 0, .http⟩) := by
    unfold phase1
    rw [hfetch]
    dsimp only
    exact hproc
  have hfp : fetchPage env startUrl =
      .ok (some ⟨startUrl, jsOrEmpty (env.extractTitle r.body) (env.urlPathname startUrl),
        env.htmlToMarkdown r.body, 0, .http⟩, .http) := by
    unfold fetchPage fetchPageI
    rw [hp1]
  have hloop : crawlLoop env maxDepth maxPages [(startUrl, 0)] ⟨[], [], [], 0, 0, 0⟩ =
      (⟨[startUrl],
        [⟨startUrl, jsOrEmpty (env.extractTitle r.body) (env.urlPathname startUrl),
          env.htmlToMarkdown r.body, 0, .http⟩], [], 1, 0, 0⟩, [startUrl]) := by
    simp only [crawlLoop]
    rw [if_pos ⟨by simpa using hmp, by decide⟩, if_neg (by simp)]
    rw [hfp]
    dsimp only
    rw [if_pos rfl]
    simp [crawlLoop]
  have hcw : crawlWebsite env startUrl maxDepth maxPages =
      (⟨[⟨startUrl, jsOrEmpty (env.extractTitle r.body) (env.urlPathname startUrl),
          env.htmlToMarkdown r.body, 0, .http⟩], [], 1, 0⟩, [startUrl]) := by
    simp only [crawlWebsite]
    rw [hloop]
  refine ⟨by rw [hcw]; rfl, by rw [hcw], by rw [hcw], ?_⟩
  unfold convertUrl
  rw [hcw]
  dsimp only
  rw [if_neg (by simp)]
  rfl

/-- Counterexample to C2 as stated: crawling with `maxPages = 3` against a
site returning valid HTML for every requested page yields 1 page and 1 HTTP
attempt — not 3 — because link extraction is skipped and the queue only ever
holds the start URL. -/
theorem crawl_maxpages3_counterexample :
    (crawlWebsite okHtmlEnv exampleUrl 2 3).1.pages.length = 1
    ∧ (crawlWebsite okHtmlEnv exampleUrl 2 3).1.pages.length ≠ 3
    ∧ (crawlWebsite okHtmlEnv exampleUrl 2 3).1.httpAttempts = 1
    ∧ (crawlWebsite okHtmlEnv exampleUrl 2 3).1.httpAttempts ≠ 3
    ∧ (crawlWebsite okHtmlEnv exampleUrl 2 3).1.browserFallbacks = 0
    ∧ (convertUrl okHtmlEnv exampleUrl 2 3 (str "site") 5).map
        ConversionResult.pagesCrawled = .ok (some 1) := by
  refine ⟨?_, ?_, ?_, ?_, ?_, ?_⟩
  · decide
  · decide
  · decide
  · decide
  · decide
  · rfl

/-- Witness of C2's amended theorem at the healthy-site environment. -/
theorem crawl_healthy_site_single_page_witness :
    (crawlWebsite okHtmlEnv exampleUrl 2 7).1.pages.length = 1
    ∧ (crawlWebsite okHtmlEnv exampleUrl 2 7).1.httpAttempts = 1
    ∧ (crawlWebsite okHtmlEnv exampleUrl 2 7).1.browserFallbacks = 0
    ∧ (convertUrl okHtmlEnv exampleUrl 2 7 (str "site") 5).map
        ConversionResult.pagesCrawled = .ok (some 1) :=
  crawl_healthy_site_single_page okHtmlEnv exampleUrl 2 7 (str "site") 5
    ⟨true, 200, str "OK", str "text/html", List.replicate 60 'a'⟩
    (by decide) rfl rfl (by decide) (by decide) (by decide)

/-- A substring of the right part is a substring of the whole. -/
theorem containsSub_appendR (x y sub : Str) (h : containsSub y sub) :
    containsSub (x ++ y) sub := by
  obtain ⟨a, b, rfl⟩ := h
  exact ⟨x ++ a, b, by rw [List.append_assoc]⟩

/-- A substring of the left part is a substring of the whole. -/
theorem containsSub_appendL (x y sub : Str) (h : containsSub x sub) :
    containsSub (x ++ y) sub := by
  obtain ⟨a, b, rfl⟩ := h
  exact ⟨a, b ++ y, by simp [List.append_assoc]⟩

/-- Every string contains itself. -/
theorem containsSub_self (s : Str) : containsSub s s := ⟨[], [], by simp⟩

/-- The diagnostic document of the zero-pages branch contains the error
summary, the methods-attempted section and the recommendations section. -/
theorem convUrlFailureMarkdown_contains (env : CrawlEnv) (url : Str)
    (depth maxPages : Nat) (fileName : Str) (pt : Nat) (cr : CrawlResult) :
    containsSub (convUrlFailureMarkdown env url depth maxPages fileName pt cr)
      (convUrlSummary cr).1
    ∧ containsSub (convUrlFailureMarkdown env url depth maxPages fileName pt cr)
      (str "## Crawling Methods Attempted")
    ∧ containsSub (convUrlFailureMarkdown env url depth maxPages fileName pt cr)
      (str "## Recommendations") := by
  unfold convUrlFailureMarkdown
  dsimp only
  refine ⟨?_, ?_, ?_⟩
  · apply containsSub_appendL
    apply containsSub_appendL
    apply containsSub_appendL
    apply containsSub_appendL
    apply containsSub_appendL
    apply containsSub_appendL
    apply containsSub_appendL
    apply containsSub_appendL
    apply containsSub_appendL
    apply containsSub_appendL
    apply containsSub_appendL
    apply containsSub_appendR
    exact containsSub_self _
  · apply containsSub_appendL
    apply containsSub_appendL
    apply containsSub_appendL
    apply containsSub_appendL
    apply containsSub_appendL
    apply containsSub_appendL
    apply containsSub_appendL
    apply containsSub_appendL
    apply containsSub_appendR
    exact ⟨str "\n\n", str "\n\n- **Enhanced HTTP Client:** ", by decide⟩
  · apply containsSub_appendL
    apply containsSub_appendL
    apply containsSub_appendR
    exact ⟨str "\n", str "\n\n", by decide⟩

/-- Claim C6: when a crawl yields zero pages, `convertUrl` does not throw: it
returns a normal conversion result whose `metadata.error` carries the error
summary and whose markdown body is a diagnostic document containing the
error classification, the methods attempted, and the recommendations. -/
theorem convertUrl_never_throws_on_crawl_failure (env : CrawlEnv) (url : Str)
    (depth maxPages : Nat) (fileName : Str) (pt : Nat)
    (hempty : (crawlWebsite env url depth maxPages).1.pages = []) :
    ∃ res, convertUrl env url depth maxPages fileName pt = .ok res
      ∧ res.metadata.error =
          some (convUrlSummary (crawlWebsite env url depth maxPages).1).1
      ∧ res.pagesCrawled = some 0
      ∧ containsSub res.markdown
          (convUrlSummary (crawlWebsite env url depth maxPages).1).1
      ∧ containsSub res.markdown (str "## Crawling Methods Attempted")
      ∧ containsSub res.markdown (str "## Recommendations") := by
  unfold convertUrl
  dsimp only
  rw [if_pos hempty]
  obtain ⟨h1, h2, h3⟩ := convUrlFailureMarkdown_contains env url depth maxPages
    fileName pt (crawlWebsite env url depth maxPages).1
  exact ⟨_, rfl, rfl, rfl, h1, h2, h3⟩

/-- Witness of C6: a site answering 404 everywhere crawls zero pages, and
the converter returns the diagnostic result instead of throwing. -/
theorem convertUrl_never_throws_witness :
    ∃ res, convertUrl notFoundEnv exampleUrl 2 10 (str "site") 5 = .ok res
      ∧ res.metadata.error =
          some (convUrlSummary (crawlWebsite notFoundEnv exampleUrl 2 10).1).1
      ∧ res.pagesCrawled = some 0
      ∧ containsSub res.markdown
          (convUrlSummary (crawlWebsite notFoundEnv exampleUrl 2 10).1).1
      ∧ containsSub res.markdown (str "## Crawling Methods Attempted")
      ∧ containsSub res.markdown (str "## Recommendations") :=
  convertUrl_never_throws_on_crawl_failure notFoundEnv exampleUrl 2 10
    (str "site") 5 (by decide)

/-- Folding a leading element into a replicate block. -/
theorem cons_replicate_append (a : JobStatus) (k : Nat) (t : List JobStatus) :
    a :: (List.replicate k a ++ t) = List.replicate (k + 1) a ++ t := by
  simp [List.replicate_succ]

/-- Collapsing a replicate block at the head. -/
theorem dedupC_replicate (a : JobStatus) :
    ∀ (k : Nat) (t : List JobStatus),
      dedupC (List.replicate (k + 1) a ++ t) = dedupC (a :: t) := by
  intro k
  induction k with
  | zero => intro t; rfl
  | succ k ih =>
    intro t
    rw [show List.replicate (k + 2) a ++ t = a :: (List.replicate (k + 1) a ++ t) from by
      simp [List.replicate_succ]]
    rw [show List.replicate (k + 1) a ++ t = a :: (List.replicate k a ++ t) from by
      simp [List.replicate_succ]]
    show dedupC (a :: a :: (List.replicate k a ++ t)) = dedupC (a :: t)
    rw [show dedupC (a :: a :: (List.replicate k a ++ t))
        = dedupC (a :: (List.replicate k a ++ t)) from by simp [dedupC]]
    rw [cons_replicate_append]
    exact ih t

/-- Collapsing a replicate block after a distinct head. -/
theorem dedupC_cons_block (x a : JobStatus) (hne : x ≠ a) (k : Nat)
    (t : List JobStatus) :
    dedupC (x :: (List.replicate (k + 1) a ++ t)) = x :: dedupC (a :: t) := by
  rw [show List.replicate (k + 1) a ++ t = a :: (List.replicate k a ++ t) from by
    simp [List.replicate_succ]]
  rw [show dedupC (x :: a :: (List.replicate k a ++ t))
      = x :: dedupC (a :: (List.replicate k a ++ t)) from by simp [dedupC, hne]]
  rw [cons_replicate_append]
  rw [dedupC_replicate]

/-- Claim C5 (amended): in a run where each stage message is delivered
exactly once and the reactivate path is unused, the recorded status sequence
(collapsing consecutive equal writes) is a subsequence of
`queued, processing, chunking, indexing, completed`, or terminates early at a
sole terminal `failed` — whatever the per-stage write counts and whether or
not a failing stage's catch block managed to write `failed`. -/
theorem job_status_sequence_linear (stage k : Nat) (b : Bool) (kp kc : Nat) :
    statusSeqOk (linearHistory stage k b kp kc) := by
  match stage with
  | 0 =>
    cases k with
    | zero =>
      cases b with
      | true =>
        unfold statusSeqOk
        rw [show linearHistory 0 0 true kp kc
            = [JobStatus.queued, JobStatus.failed] from rfl]
        decide
      | false =>
        unfold statusSeqOk
        rw [show linearHistory 0 0 false kp kc = [JobStatus.queued] from rfl]
        decide
    | succ k2 =>
      cases b with
      | true =>
        have hd := dedupC_cons_block .queued .processing (by decide) k2 [.failed]
        unfold statusSeqOk
        rw [show linearHistory 0 (k2 + 1) true kp kc
            = JobStatus.queued :: (List.replicate (k2 + 1) .processing ++ [.failed]) from rfl]
        rw [hd]
        decide
      | false =>
        have hd := dedupC_cons_block .queued .processing (by decide) k2 []
        unfold statusSeqOk
        rw [show linearHistory 0 (k2 + 1) false kp kc
            = JobStatus.queued :: (List.replicate (k2 + 1) .processing ++ []) from rfl]
        rw [hd]
        decide
  | 1 =>
    have hshape : linearHistory 1 k b kp kc
        = JobStatus.queued :: (List.replicate (kp + 1) .processing
            ++ (List.replicate (k + 1) .chunking
              ++ (if b then [JobStatus.failed] else []))) := by
      show JobStatus.queued :: (List.replicate (kp + 1) .processing ++ [.chunking])
          ++ (List.replicate k .chunking ++ (if b then [JobStatus.failed] else [])) = _
      simp [List.append_assoc, cons_replicate_append]
    unfold statusSeqOk
    rw [hshape, dedupC_cons_block .queued .processing (by decide),
      dedupC_cons_block .processing .chunking (by decide)]
    cases b <;> decide
  | 2 =>
    have hshape : linearHistory 2 k b kp kc
        = JobStatus.queued :: (List.replicate (kp + 1) .processing
            ++ (List.replicate (kc + 2) .chunking
              ++ (List.replicate (k + 1) .indexing
                ++ (if b then [JobStatus.failed] else [])))) := by
      show JobStatus.queued :: (List.replicate (kp + 1) .processing ++ [.chunking])
          ++ (List.replicate (kc + 1) .chunking ++ [.indexing])
          ++ (List.replicate k .indexing ++ (if b then [JobStatus.failed] else [])) = _
      simp [List.append_assoc, cons_replicate_append]
    unfold statusSeqOk
    rw [hshape, dedupC_cons_block .queued .processing (by decide),
      dedupC_cons_block .processing .chunking (by decide),
      dedupC_cons_block .chunking .indexing (by decide)]
    cases b <;> decide
  | (n + 3) =>
    have hshape : linearHistory (n + 3) k b kp kc
        = JobStatus.queued :: (List.replicate (kp + 1) .processing
            ++ (List.replicate (kc + 2) .chunking
              ++ (List.replicate (k + 2) .indexing ++ [JobStatus.completed]))) := by
      show JobStatus.queued :: (List.replicate (kp + 1) .processing ++ [.chunking])
          ++ (List.replicate (kc + 1) .chunking ++ [.indexing])
          ++ (List.replicate (k + 1) .indexing ++ [JobStatus.completed]) = _
      simp [List.append_assoc, cons_replicate_append]
    unfold statusSeqOk
    rw [hshape, dedupC_cons_block .queued .processing (by decide),
      dedupC_cons_block .processing .chunking (by decide),
      dedupC_cons_block .chunking .indexing (by decide)]
    decide

/-- Counterexample to C5 as stated: with at-least-once delivery, a duplicate
chunking message re-delivered after the indexer marked the job `failed` is
processed again by the chunker handler — which writes `chunking` without any
guard on the current status.  The recorded sequence
`queued, processing, chunking, indexing, failed, chunking, indexing` is
reachable, is not a subsequence of the canonical order, and moves the job out
of `failed`. -/
theorem job_status_counterexample :
    PipeReach c5Bad ∧ ¬ statusSeqOk c5Bad.history := by
  constructor
  · have s1 : PipeStep pipeInit c5s1 := PipeStep.procOk pipeInit 0 rfl
    have s2 : PipeStep c5s1 c5s2 := PipeStep.chunkOk c5s1 0 rfl
    have s3 : PipeStep c5s2 c5s3 := PipeStep.idxFail c5s2 0 true rfl
    have s4 : PipeStep c5s3 c5Bad := PipeStep.chunkOk c5s3 0 rfl
    exact Relation.ReflTransGen.tail (Relation.ReflTransGen.tail
      (Relation.ReflTransGen.tail (Relation.ReflTransGen.tail
        Relation.ReflTransGen.refl s1) s2) s3) s4
  · unfold statusSeqOk
    decide

/-- Parsing a literal prefix succeeds and consumes exactly it. -/
theorem parseLit_append : ∀ (lit rest : Str), parseLit lit (lit ++ rest) = some rest := by
  intro lit
  induction lit with
  | nil => intro rest; rfl
  | cons p ps ih =>
    intro rest
    show parseLit (p :: ps) (p :: (ps ++ rest)) = some rest
    unfold parseLit
    rw [if_pos rfl]
    exact ih rest

/-- Hex digit round trip. -/
theorem hexVal_hexDigitChar (d : Nat) (h : d < 16) :
    hexVal (hexDigitChar d) = some d := by
  interval_cases d <;> decide

/-- String-body decoding inverts JSON escaping (fuelled form). -/
theorem decodeBodyF_encodeStr : ∀ (v : Str) (fuel : Nat) (rest : Str),
    v.length < fuel →
    decodeBodyF fuel (encodeStr v ++ ('"' :: rest)) = some (v, rest) := by
  intro v
  induction v with
  | nil =>
    intro fuel rest hf
    obtain ⟨f, rfl⟩ : ∃ f, fuel = f + 1 := ⟨fuel - 1, by omega⟩
    rfl
  | cons c cs ih =>
    intro fuel rest hf
    obtain ⟨f, rfl⟩ : ∃ f, fuel = f + 1 := ⟨fuel - 1, by omega⟩
    have hfcs : cs.length < f := by
      simp only [List.length_cons] at hf
      omega
    have hmain : encodeStr (c :: cs) ++ ('"' :: rest)
        = encChar c ++ (encodeStr cs ++ ('"' :: rest)) := by
      simp [encodeStr, List.append_assoc]
    rw [hmain]
    by_cases h1 : c = '"'
    · subst h1
      rw [show encChar '"' = ['\\', '"'] from rfl]
      simp only [List.cons_append, List.nil_append]
      simp only [decodeBodyF]
      simp only [if_true]
      rw [if_neg (by decide), show escCharInv '"' = some '"' from rfl]
      dsimp only
      rw [ih f rest hfcs]
      simp
    · by_cases h2 : c = '\\'
      · subst h2
        rw [show encChar '\\' = ['\\', '\\'] from rfl]
        simp only [List.cons_append, List.nil_append]
        simp only [decodeBodyF]
        simp only [if_true]
        rw [if_neg (by decide), show escCharInv '\\' = some '\\' from rfl]
        dsimp only
        rw [ih f rest hfcs]
        simp
      · by_cases h3 : c = '\n'
        · subst h3
          rw [show encChar '\n' = ['\\', 'n'] from rfl]
          simp only [List.cons_append, List.nil_append]
          simp only [decodeBodyF]
          simp only [if_true]
          rw [if_neg (by decide), show escCharInv 'n' = some '\n' from rfl]
          dsimp only
          rw [ih f rest hfcs]
          simp
        · by_cases h4 : c = '\x0d'
          · subst h4
            rw [show encChar '\x0d' = ['\\', 'r'] from rfl]
            simp only [List.cons_append, List.nil_append]
            simp only [decodeBodyF]
            simp only [if_true]
            rw [if_neg (by decide), show escCharInv 'r' = some '\x0d' from rfl]
            dsimp only
            rw [ih f rest hfcs]
            simp
          · by_cases h5 : c = '\t'
            · subst h5
              rw [show encChar '\t' = ['\\', 't'] from rfl]
              simp only [List.cons_append, List.nil_append]
              simp only [decodeBodyF]
              simp only [if_true]
              rw [if_neg (by decide), show escCharInv 't' = some '\t' from rfl]
              dsimp only
              rw [ih f rest hfcs]
              simp
            · by_cases h6 : c = '\x08'
              · subst h6
                rw [show encChar '\x08' = ['\\', 'b'] from rfl]
                simp only [List.cons_append, List.nil_append]
                simp only [decodeBodyF]
                simp only [if_true]
                rw [if_neg (by decide), show escCharInv 'b' = some '\x08' from rfl]
                dsimp only
                rw [ih f rest hfcs]
                simp
              · by_cases h7 : c = '\x0c'
                · subst h7
                  rw [show encChar '\x0c' = ['\\', 'f'] from rfl]
                  simp only [List.cons_append, List.nil_append]
                  simp only [decodeBodyF]
                  simp only [if_true]
                  rw [if_neg (by decide), show escCharInv 'f' = some '\x0c' from rfl]
                  dsimp only
                  rw [ih f rest hfcs]
                  simp
                · by_cases h8 : c.toNat < 32
                  · rw [show encChar c = ['\\', 'u', '0', '0',
                        hexDigitChar (c.toNat / 16), hexDigitChar (c.toNat % 16)] from by
                      unfold encChar
                      rw [if_neg h1, if_neg h2, if_neg h3, if_neg h4, if_neg h5,
                        if_neg h6, if_neg h7, if_pos h8]]
                    simp only [List.cons_append, List.nil_append]
                    simp only [decodeBodyF]
                    rw [if_neg (by decide)]
                    rw [show hexVal '0' = some 0 from rfl,
                      hexVal_hexDigitChar (c.toNat / 16) (by omega),
                      hexVal_hexDigitChar (c.toNat % 16) (by omega)]
                    dsimp only
                    rw [ih f rest hfcs]
                    rw [show ((0 * 16 + 0) * 16 + c.toNat / 16) * 16 + c.toNat % 16
                        = c.toNat from by omega, Char.ofNat_toNat]
                    simp
                  · rw [show encChar c = [c] from by
                      unfold encChar
                      rw [if_neg h1, if_neg h2, if_neg h3, if_neg h4, if_neg h5,
                        if_neg h6, if_neg h7, if_neg h8]]
                    simp only [List.cons_append, List.nil_append]
                    simp only [decodeBodyF]
                    rw [if_neg h1, if_neg h2]
                    rw [ih f rest hfcs]

/-- Escaping never shortens a string. -/
theorem length_encodeStr_ge (v : Str) : v.length ≤ (encodeStr v).length := by
  induction v with
  | nil => simp [encodeStr]
  | cons c cs ih =>
    have hc : 1 ≤ (encChar c).length := by
      unfold encChar
      split_ifs <;> simp
    have : encodeStr (c :: cs) = encChar c ++ encodeStr cs := by
      simp [encodeStr]
    rw [this]
    simp only [List.length_append, List.length_cons]
    omega

/-- String-body decoding inverts JSON escaping. -/
theorem decodeBody_encodeStr (v rest : Str) :
    decodeBody (encodeStr v ++ ('"' :: rest)) = some (v, rest) := by
  unfold decodeBody
  apply decodeBodyF_encodeStr
  have := length_encodeStr_ge v
  simp only [List.length_append, List.length_cons]
  omega

/-- Parsing a quoted JSON string value inverts quoting plus escaping. -/
theorem parseJStr_q (v rest : Str) :
    parseJStr (jsonQ v ++ rest) = some (v, rest) := by
  have hshape : jsonQ v ++ rest = '"' :: (encodeStr v ++ ('"' :: rest)) := by
    simp [jsonQ, List.append_assoc]
  rw [hshape]
  show decodeBody (encodeStr v ++ ('"' :: rest)) = some (v, rest)
  exact decodeBody_encodeStr v rest

/-- Parsing a mandatory string field inverts printing it. -/
theorem parseKeyStr_round (lit v rest : Str) :
    parseKeyStr lit (lit ++ (jsonQ v ++ rest)) = some (v, rest) := by
  unfold parseKeyStr
  rw [parseLit_append]
  exact parseJStr_q v rest

/-- Decimal digits are digits. -/
theorem digitChar_isDigit (d : Nat) : (digitChar d).isDigit = true := by
  unfold digitChar
  split <;> decide

/-- Every character printed for a number is a digit. -/
theorem natToStr_digits (n : Nat) : ∀ ch ∈ natToStr n, ch.isDigit = true := by
  unfold natToStr
  split
  · intro ch hch
    simp only [List.mem_singleton] at hch
    subst hch
    decide
  · intro ch hch
    rw [List.mem_reverse] at hch
    obtain ⟨d, _, rfl⟩ := List.mem_map.mp hch
    exact digitChar_isDigit d

/-- A printed number is nonempty. -/
theorem natToStr_ne_nil (n : Nat) : natToStr n ≠ [] := by
  unfold natToStr
  split
  · simp
  · next h =>
    simp only [ne_eq, List.reverse_eq_nil_iff, List.map_eq_nil_iff]
    simp only [natDigitsAux, if_neg h]
    simp

/-- Splitting a run of matching characters off a string with a non-matching
continuation. -/
theorem takeWhile_dropWhile_append (p : Char → Bool) :
    ∀ (ds rest : Str), (∀ c ∈ ds, p c = true) →
      (∀ c, rest.head? = some c → p c = false) →
      (ds ++ rest).takeWhile p = ds ∧ (ds ++ rest).dropWhile p = rest := by
  intro ds
  induction ds with
  | nil =>
    intro rest hds hrest
    cases rest with
    | nil => simp [List.takeWhile, List.dropWhile]
    | cons c t =>
      have := hrest c rfl
      simp [List.takeWhile_cons, List.dropWhile_cons, this]
  | cons d ds ih =>
    intro rest hds hrest
    have hd : p d = true := hds d (by simp)
    obtain ⟨h1, h2⟩ := ih rest (fun c hc => hds c (by simp [hc])) hrest
    constructor
    · simp only [List.cons_append, List.takeWhile_cons, hd, if_true]
      rw [h1]
    · simp only [List.cons_append, List.dropWhile_cons, hd, if_true]
      rw [h2]

/-- Folding the decimal digits back. -/
theorem foldl_digits (fuel : Nat) :
    ∀ (n acc : Nat), n ≤ fuel →
      List.foldl (fun a c => a * 10 + (c.toNat - 48)) acc
          ((natDigitsAux fuel n).map digitChar).reverse
        = acc * 10 ^ (natDigitsAux fuel n).length + n := by
  induction fuel with
  | zero =>
    intro n acc hle
    have : n = 0 := by omega
    subst this
    simp [natDigitsAux]
  | succ fuel ih =>
    intro n acc hle
    by_cases hn : n = 0
    · subst hn
      simp [natDigitsAux]
    · rw [show natDigitsAux (fuel + 1) n = n % 10 :: natDigitsAux fuel (n / 10) from by
        simp only [natDigitsAux, if_neg hn]]
      simp only [List.map_cons, List.reverse_cons, List.foldl_append, List.foldl_cons,
        List.foldl_nil, List.length_cons]
      have hrec := ih (n / 10) acc (by omega)
      rw [hrec]
      have hdv : (digitChar (n % 10)).toNat - 48 = n % 10 := by
        have h10 : n % 10 < 10 := Nat.mod_lt n (by omega)
        interval_cases h : n % 10 <;> simp [digitChar]
      rw [hdv]
      rw [pow_succ]
      have := Nat.div_add_mod n 10
      ring_nf
      omega

/-- Number parsing inverts number printing. -/
theorem strToNat_natToStr (n : Nat) : strToNat (natToStr n) = n := by
  unfold natToStr
  split
  · next h => subst h; rfl
  · next h =>
    unfold strToNat
    have := foldl_digits (n + 1) n 0 (by omega)
    rw [this]
    simp

/-- Parsing a decimal number inverts printing when what follows does not
start with a digit. -/
theorem parseNatFrom_round (n : Nat) (rest : Str)
    (hrest : rest.head?.all (fun c => !c.isDigit) = true) :
    parseNatFrom (natToStr n ++ rest) = some (n, rest) := by
  have hrest2 : ∀ c, rest.head? = some c → Char.isDigit c = false := by
    intro c hc
    rw [hc] at hrest
    simpa using hrest
  obtain ⟨h1, h2⟩ := takeWhile_dropWhile_append Char.isDigit (natToStr n) rest
    (natToStr_digits n) hrest2
  simp only [parseNatFrom]
  rw [h1, h2, if_neg (natToStr_ne_nil n), strToNat_natToStr]

/-- Parsing a mandatory numeric field inverts printing it. -/
theorem parseKeyNat_round (lit : Str) (n : Nat) (rest : Str)
    (hrest : rest.head?.all (fun c => !c.isDigit) = true) :
    parseKeyNat lit (lit ++ (natToStr n ++ rest)) = some (n, rest) := by
  unfold parseKeyNat
  rw [parseLit_append]
  exact parseNatFrom_round n rest hrest

/-- A present optional field parses back to its value. -/
theorem parseOptField_some (k : String) (v rest : Str) :
    parseOptField k (optField k (some v) ++ rest) = some (some v, rest) := by
  unfold parseOptField optField
  rw [show (str ",\"" ++ str k ++ str "\":" ++ jsonQ v) ++ rest
        = (str ",\"" ++ str k ++ str "\":") ++ (jsonQ v ++ rest) from by
      simp [List.append_assoc]]
  rw [parseLit_append]
  dsimp only
  rw [parseJStr_q]
  rfl

/-- An optional field whose key literal is not present parses to `none`
without consuming input. -/
theorem parseOptField_skip (k : String) (s : Str)
    (h : parseLit (str ",\"" ++ str k ++ str "\":") s = none) :
    parseOptField k s = some (none, s) := by
  unfold parseOptField
  rw [h]

/-- The `modified` step of the optional-field parse. -/
theorem parseOpt_modified (m : Option Str) :
    parseOptField "modified" (optField "modified" m ++ str "\x7d\x7d")
      = some (m, str "\x7d\x7d") := by
  cases m with
  | some v => exact parseOptField_some "modified" v _
  | none =>
    rw [show optField "modified" none = ([] : Str) from rfl, List.nil_append]
    exact parseOptField_skip "modified" _ rfl

/-- The `created` step of the optional-field parse. -/
theorem parseOpt_created (c m : Option Str) :
    parseOptField "created" (optField "created" c ++ (optField "modified" m ++ str "\x7d\x7d"))
      = some (c, optField "modified" m ++ str "\x7d\x7d") := by
  cases c with
  | some v => exact parseOptField_some "created" v _
  | none =>
    rw [show optField "created" none = ([] : Str) from rfl, List.nil_append]
    cases m with
    | some v => exact parseOptField_skip "created" _ rfl
    | none =>
      rw [show optField "modified" none = ([] : Str) from rfl, List.nil_append]
      exact parseOptField_skip "created" _ rfl

/-- The `title` step of the optional-field parse. -/
theorem parseOpt_title (t c m : Option Str) :
    parseOptField "title"
        (optField "title" t ++ (optField "created" c ++ (optField "modified" m ++ str "\x7d\x7d")))
      = some (t, optField "created" c ++ (optField "modified" m ++ str "\x7d\x7d")) := by
  cases t with
  | some v => exact parseOptField_some "title" v _
  | none =>
    rw [show optField "title" none = ([] : Str) from rfl, List.nil_append]
    cases c with
    | some v => exact parseOptField_skip "title" _ rfl
    | none =>
      rw [show optField "created" none = ([] : Str) from rfl, List.nil_append]
      cases m with
      | some v => exact parseOptField_skip "title" _ rfl
      | none =>
        rw [show optField "modified" none = ([] : Str) from rfl, List.nil_append]
        exact parseOptField_skip "title" _ rfl

/-- The optional-metadata block parses back to the three options. -/
theorem parseChunkOpts_round (t c m : Option Str) :
    parseChunkOpts
        (optField "title" t ++ (optField "created" c ++ (optField "modified" m ++ str "\x7d\x7d")))
      = some (t, c, m, str "\x7d\x7d") := by
  unfold parseChunkOpts
  rw [parseOpt_title]
  dsimp only
  rw [parseOpt_created]
  dsimp only
  rw [parseOpt_modified]

/-- The id/content head of a chunk line parses back to the two strings. -/
theorem parseChunkHead_round (idv cv rest : Str) :
    parseChunkHead
        (str "\x7b\"id\":" ++ (jsonQ idv ++ (str ",\"content\":" ++ (jsonQ cv ++ rest))))
      = some (idv, cv, rest) := by
  unfold parseChunkHead
  rw [parseKeyStr_round]
  dsimp only
  rw [parseKeyStr_round]

/-- The mandatory metadata block of a chunk line parses back to its six
fields. -/
theorem parseChunkMeta_round (sf dt : Str) (ci wc : Nat) (pid ct rest : Str) :
    parseChunkMeta
        (str ",\"metadata\":\x7b\"source_file\":" ++ (jsonQ sf
          ++ (str ",\"document_type\":" ++ (jsonQ dt
          ++ (str ",\"chunk_index\":" ++ (natToStr ci
          ++ (str ",\"word_count\":" ++ (natToStr wc
          ++ (str ",\"project_id\":" ++ (jsonQ pid
          ++ (str ",\"crawl_time\":" ++ (jsonQ ct ++ rest))))))))))))
      = some (⟨sf, dt, ci, wc, pid, ct, none, none, none⟩, rest) := by
  unfold parseChunkMeta
  rw [parseKeyStr_round]
  dsimp only
  rw [parseKeyStr_round]
  dsimp only
  rw [parseKeyNat_round]
  case hrest => rfl
  dsimp only
  rw [parseKeyNat_round]
  case hrest => rfl
  dsimp only
  rw [parseKeyStr_round]
  dsimp only
  rw [parseKeyStr_round]

/-- `stringifyChunk` in right-associated form. -/
theorem stringifyChunk_eq (c : DocumentChunk) :
    stringifyChunk c
      = str "\x7b\"id\":" ++ (jsonQ c.id
        ++ (str ",\"content\":" ++ (jsonQ c.content
        ++ (str ",\"metadata\":\x7b\"source_file\":" ++ (jsonQ c.metadata.source_file
        ++ (str ",\"document_type\":" ++ (jsonQ c.metadata.document_type
        ++ (str ",\"chunk_index\":" ++ (natToStr c.metadata.chunk_index
        ++ (str ",\"word_count\":" ++ (natToStr c.metadata.word_count
        ++ (str ",\"project_id\":" ++ (jsonQ c.metadata.project_id
        ++ (str ",\"crawl_time\":" ++ (jsonQ c.metadata.crawl_time
        ++ (optField "title" c.metadata.title
        ++ (optField "created" c.metadata.created
        ++ (optField "modified" c.metadata.modified
        ++ str "\x7d\x7d")))))))))))))))))) := by
  simp only [stringifyChunk, List.append_assoc]

/-- `JSON.parse` of a stringified chunk returns the chunk. -/
theorem parseChunkLine_round (c : DocumentChunk) :
    parseChunkLine (stringifyChunk c) = some c := by
  rw [stringifyChunk_eq]
  unfold parseChunkLine
  rw [parseChunkHead_round]
  dsimp only
  rw [parseChunkMeta_round]
  dsimp only
  rw [parseChunkOpts_round]
  rfl

/-- Hex digits are never a newline. -/
theorem hexDigitChar_ne_nl (d : Nat) : hexDigitChar d ≠ '\n' := by
  match d with
  | 0 | 1 | 2 | 3 | 4 | 5 | 6 | 7 | 8 | 9 | 10 | 11 | 12 | 13 | 14 => decide
  | n + 15 => exact (by decide : ('f' : Char) ≠ '\n')

/-- The JSON escape of any character contains no raw newline. -/
theorem nl_not_mem_encChar (c : Char) : '\n' ∉ encChar c := by
  unfold encChar
  split_ifs with h1 h2 h3 h4 h5 h6 h7 h8
  · decide
  · decide
  · decide
  · decide
  · decide
  · decide
  · decide
  · intro hmem
    simp only [List.mem_cons, List.not_mem_nil, or_false] at hmem
    rcases hmem with h | h | h | h | h | h
    · exact absurd h (by decide)
    · exact absurd h (by decide)
    · exact absurd h (by decide)
    · exact absurd h (by decide)
    · exact (hexDigitChar_ne_nl _) h.symm
    · exact (hexDigitChar_ne_nl _) h.symm
  · intro hmem
    simp only [List.mem_singleton] at hmem
    subst hmem
    exact h8 (by decide)

/-- An escaped string body contains no raw newline. -/
theorem nl_not_mem_encodeStr (s : Str) : '\n' ∉ encodeStr s := by
  unfold encodeStr
  intro h
  rw [List.mem_flatten] at h
  obtain ⟨l, hl, hmem⟩ := h
  rw [List.mem_map] at hl
  obtain ⟨ch, _, rfl⟩ := hl
  exact nl_not_mem_encChar ch hmem

/-- A quoted JSON string value contains no raw newline. -/
theorem nl_not_mem_jsonQ (s : Str) : '\n' ∉ jsonQ s := by
  unfold jsonQ
  intro h
  simp only [List.mem_cons, List.mem_append, List.mem_singleton] at h
  rcases h with h | h | h
  · exact absurd h (by decide)
  · exact nl_not_mem_encodeStr s h
  · exact absurd h (by decide)

/-- A printed number contains no newline. -/
theorem nl_not_mem_natToStr (n : Nat) : '\n' ∉ natToStr n := by
  intro h
  exact absurd (natToStr_digits n '\n' h) (by decide)

/-- A printed optional field contains no newline (for newline-free keys). -/
theorem nl_not_mem_optField (k : String) (v : Option Str) (hk : '\n' ∉ str k) :
    '\n' ∉ optField k v := by
  cases v with
  | none => simp [optField]
  | some s =>
    unfold optField
    intro h
    simp only [List.mem_append] at h
    rcases h with ((h | h) | h) | h
    · exact absurd h (by decide)
    · exact hk h
    · exact absurd h (by decide)
    · exact nl_not_mem_jsonQ s h

/-- A stringified chunk is a single line: it contains no raw newline. -/
theorem nl_not_mem_stringifyChunk (c : DocumentChunk) : '\n' ∉ stringifyChunk c := by
  rw [stringifyChunk_eq]
  intro h
  simp only [List.mem_append] at h
  rcases h with h | h | h | h | h | h | h | h | h | h | h | h | h | h | h | h | h | h | h | h
  · exact absurd h (by decide)
  · exact nl_not_mem_jsonQ _ h
  · exact absurd h (by decide)
  · exact nl_not_mem_jsonQ _ h
  · exact absurd h (by decide)
  · exact nl_not_mem_jsonQ _ h
  · exact absurd h (by decide)
  · exact nl_not_mem_jsonQ _ h
  · exact absurd h (by decide)
  · exact nl_not_mem_natToStr _ h
  · exact absurd h (by decide)
  · exact nl_not_mem_natToStr _ h
  · exact absurd h (by decide)
  · exact nl_not_mem_jsonQ _ h
  · exact absurd h (by decide)
  · exact nl_not_mem_jsonQ _ h
  · exact nl_not_mem_optField _ _ (by decide) h
  · exact nl_not_mem_optField _ _ (by decide) h
  · exact nl_not_mem_optField _ _ (by decide) h
  · exact absurd h (by decide)

/-- A string with a non-whitespace member does not trim to empty. -/
theorem jsTrim_ne_nil_of_mem (s : Str) (a : Char) (ha : a ∈ s) (hws : isJsWS a = false) :
    jsTrim s ≠ [] := by
  intro h
  unfold jsTrim at h
  rw [List.reverse_eq_nil_iff, List.dropWhile_eq_nil_iff] at h
  have hsplit : List.takeWhile isJsWS s ++ List.dropWhile isJsWS s = s :=
    List.takeWhile_append_dropWhile isJsWS s
  have hall : isJsWS a = true := by
    rw [← hsplit] at ha
    rcases List.mem_append.mp ha with h1 | h2
    · exact List.mem_takeWhile_imp h1
    · exact h a (List.mem_reverse.mpr h2)
  rw [hws] at hall
  exact Bool.false_ne_true hall

/-- A stringified chunk does not trim to the empty line. -/
theorem jsTrim_stringifyChunk_ne_nil (c : DocumentChunk) : jsTrim (stringifyChunk c) ≠ [] := by
  refine jsTrim_ne_nil_of_mem _ '\x7b' ?_ (by decide)
  rw [stringifyChunk_eq]
  simp only [List.mem_append]
  left
  decide

/-- The blank-line filter of `jsonlToChunks` keeps every stringified chunk. -/
theorem filter_trim_map (cs : List DocumentChunk) :
    (cs.map stringifyChunk).filter (fun line => jsTrim line ≠ []) = cs.map stringifyChunk := by
  induction cs with
  | nil => rfl
  | cons c cs ih =>
    simp only [List.map_cons, List.filter_cons]
    rw [if_pos (by simpa using jsTrim_stringifyChunk_ne_nil c), ih]

/-- Parsing the stringified lines recovers the chunk list. -/
theorem parseChunkLines_map (cs : List DocumentChunk) :
    parseChunkLines (cs.map stringifyChunk) = some cs := by
  induction cs with
  | nil => rfl
  | cons c cs ih =>
    simp only [List.map_cons, parseChunkLines]
    rw [parseChunkLine_round, ih]

/-- C9: for every nonempty list of DocumentChunk values,
`jsonlToChunks (chunksToJsonl chunks) = chunks`: serializing the list to one
JSON object per newline-delimited line and parsing it back is the identity
(`some` is the non-throwing return of `jsonlToChunks`). -/
theorem jsonl_roundtrip (chunks : List DocumentChunk) (h : chunks ≠ []) :
    jsonlToChunks (chunksToJsonl chunks) = some chunks := by
  unfold jsonlToChunks chunksToJsonl jsSplit
  rw [List.splitOn_intercalate]
  · rw [filter_trim_map]
    exact parseChunkLines_map chunks
  · intro l hl
    rcases List.mem_map.mp hl with ⟨ch, _, rfl⟩
    exact nl_not_mem_stringifyChunk ch
  · intro hnil
    rw [List.map_eq_nil_iff] at hnil
    exact h hnil

/-- C9 witness: the round trip holds at a concrete one-chunk list whose
content exercises escaping (quotes and a newline). -/
theorem jsonl_roundtrip_witness :
    ([c9Chunk] : List DocumentChunk) ≠ [] ∧
      jsonlToChunks (chunksToJsonl [c9Chunk]) = some [c9Chunk] :=
  ⟨by simp, jsonl_roundtrip [c9Chunk] (by simp)⟩
